import Mathlib

/-!
# The frame loop of `main_dso_pangolin.cpp`

A shallow embedding of `parseArgument` and `main` of `src/main_dso_pangolin.cpp`:
the command-line globals, the photometric-calibration check, the frame loop run
by `runthread` together with its reset block, the figures computed after the
loop and the teardown of `main`.

Every call that leaves the file (the reader, the engine, the output wrappers) is
recorded as an `Event`; the order of the events of one thread is the program
order of that thread.
-/

namespace DSO

/-! ## Data model -/

/-- An `IOWrap::Output3DWrapper *`, identified by the object it points to. -/
abbrev Output3DWrapper := Nat

/-- The table returned by `reader->getPhotometricGamma()`. -/
abbrev GammaTable := Nat

/-- The fields of `FullSystem` that `main` reads or writes. -/
structure FullSystem where
  initialized : Bool
  initFailed : Bool
  isLost : Bool
  outputWrapper : List Output3DWrapper
  deriving DecidableEq, Repr

/-- What `main` can read once `fullSystem->addActiveFrame(img, i)` has returned:
the three flags of the engine that received the frame, and the value the global
`setting_fullResetRequested` has when line 338 tests it. -/
structure FrameReport where
  initialized : Bool
  initFailed : Bool
  isLost : Bool
  fullResetRequested : Bool
  deriving DecidableEq, Repr

/-- An engine behaviour: the report that follows the submission of each frame
index.  The loop submits an index at most once, so a report per index describes
any run. -/
abbrev EngineBehaviour := Int → FrameReport

/-- Modelled from the spec: the constructor `FullSystem::FullSystem()`
(`FullSystem.cpp` is not part of the sources).  A new instance is the
"fresh `Uninitialized` instance" of the engine state machine of section 4.3: not
initialized, not failed, not lost, and with no sink attached. -/
def FullSystem.new : FullSystem :=
  { initialized := false, initFailed := false, isLost := false, outputWrapper := [] }

/-- Modelled from the spec: `FullSystem::addActiveFrame(img, id)`
(`FullSystem.cpp` is not part of the sources).  The engine consumes the frame and
sets its flags; the sink collection is left alone ("only the Orchestrator may
add/remove sinks", section 5). -/
def FullSystem.addActiveFrame (beh : EngineBehaviour) (fs : FullSystem) (id : Int) :
    FullSystem :=
  { fs with
    initialized := (beh id).initialized
    initFailed := (beh id).initFailed
    isLost := (beh id).isLost }

/-- The calls and assignments of `main` that are visible from outside it. -/
inductive Event where
  /-- Line 295: `new ImageFolderReader(source, calib, gammaCalib, vignette)`. -/
  | newReader
  /-- Line 297: `reader->setGlobalCalibration()`. -/
  | setGlobalCalibration
  /-- Lines 307, 347: `new FullSystem()`; instances are numbered in construction order. -/
  | newFullSystem (engine : Nat)
  /-- Lines 308, 348: `fullSystem->setGammaFunction(reader->getPhotometricGamma())`. -/
  | setGammaFunction (engine : Nat) (gamma : Option GammaTable)
  /-- Lines 312, 317: `new IOWrap::PangolinDSOViewer(..)`, `new IOWrap::SampleOutputWrapper()`. -/
  | newWrapper (ow : Output3DWrapper)
  /-- Lines 313, 317: `fullSystem->outputWrapper.push_back(ow)`. -/
  | pushWrapper (engine : Nat) (ow : Output3DWrapper)
  /-- Line 321: construction of `std::thread runthread`. -/
  | startRunthread
  /-- Lines 329-330: `gettimeofday(&tv_start, NULL); started = clock();`. -/
  | restartClock
  /-- Line 334: `reader->getImage(i)`. -/
  | getImage (i : Int)
  /-- Line 335: `fullSystem->addActiveFrame(img, i)`. -/
  | addActiveFrame (engine : Nat) (i : Int)
  /-- Line 336: `delete img`. -/
  | deleteImage (i : Int)
  /-- Lines 340-341: `wraps = fullSystem->outputWrapper`. -/
  | captureWraps (engine : Nat) (wraps : List Output3DWrapper)
  /-- Lines 342, 392: `delete fullSystem`. -/
  | deleteFullSystem (engine : Nat)
  /-- Line 345: `ow->reset()`. -/
  | wrapperReset (ow : Output3DWrapper)
  /-- Line 349: `fullSystem->linearizeOperation = true`. -/
  | setLinearizeOperation (engine : Nat)
  /-- Line 350: `fullSystem->outputWrapper = wraps`. -/
  | attachWraps (engine : Nat) (wraps : List Output3DWrapper)
  /-- Line 351: `setting_fullResetRequested = false`. -/
  | clearFullResetRequest
  /-- Lines 355-356: the branch taken when `fullSystem->isLost` holds, ending in `break`. -/
  | lost (engine : Nat)
  /-- Line 363: `fullSystem->printResult(file)`. -/
  | printResult (engine : Nat) (file : String)
  /-- Line 382: `viewer->run()` has returned. -/
  | viewerRun
  /-- Line 384: `runthread.join()` has returned. -/
  | joinRunthread
  /-- Line 387: `ow->join()`. -/
  | wrapperJoin (ow : Output3DWrapper)
  /-- Line 388: `delete ow`. -/
  | deleteWrapper (ow : Output3DWrapper)
  /-- Line 395: `delete reader`. -/
  | deleteReader
  deriving DecidableEq, Repr

/-- The variables shared by the iterations of the frame loop: the pointer
`fullSystem` (its target and the number of that instance) and the global
`setting_fullResetRequested`. -/
structure Machine where
  fullSystem : FullSystem
  engine : Nat
  setting_fullResetRequested : Bool
  deriving DecidableEq, Repr

/-! ## The frame loop (lines 327-358) -/

/-- Lines 333-336: fetch frame `i`, hand it to the active engine, release it. -/
def submitFrame (beh : EngineBehaviour) (i : Int) (m : Machine) : Machine × List Event :=
  ({ m with
      fullSystem := m.fullSystem.addActiveFrame beh i
      setting_fullResetRequested := (beh i).fullResetRequested },
   [Event.getImage i, Event.addActiveFrame m.engine i, Event.deleteImage i])

/-- Lines 339-351: the body of the reset branch. -/
def resetBlock (gamma : Option GammaTable) (m : Machine) : Machine × List Event :=
  let wraps := m.fullSystem.outputWrapper
  ({ fullSystem := { FullSystem.new with outputWrapper := wraps }
     engine := m.engine + 1
     setting_fullResetRequested := false },
   [Event.captureWraps m.engine wraps, Event.deleteFullSystem m.engine]
     ++ wraps.map Event.wrapperReset
     ++ [Event.newFullSystem (m.engine + 1),
         Event.setGammaFunction (m.engine + 1) gamma,
         Event.setLinearizeOperation (m.engine + 1),
         Event.attachWraps (m.engine + 1) wraps,
         Event.clearFullResetRequest])

/-- Lines 328-352 of one iteration: everything before the `isLost` test. -/
def loopBody (beh : EngineBehaviour) (gamma : Option GammaTable) (i : Int) (m : Machine) :
    Machine × List Event :=
  let clock := if !m.fullSystem.initialized then [Event.restartClock] else []
  let s := submitFrame beh i m
  if s.1.fullSystem.initFailed || s.1.setting_fullResetRequested then
    let r := resetBlock gamma s.1
    (r.1, clock ++ s.2 ++ r.2)
  else
    (s.1, clock ++ s.2)

/-- The loop `for (int i = start; i < end; i++)` entered at index `i`.  The first
argument bounds the number of iterations still to run; `frameLoop_fuel` shows
that `(end - i).toNat` is enough. -/
def frameLoop (beh : EngineBehaviour) (gamma : Option GammaTable) (end_ : Int) :
    Nat → Int → Machine → Machine × List Event
  | 0, _, m => (m, [])
  | fuel + 1, i, m =>
    if i < end_ then
      let b := loopBody beh gamma i m
      if b.1.fullSystem.isLost then
        (b.1, b.2 ++ [Event.lost b.1.engine])
      else
        let r := frameLoop beh gamma end_ fuel (i + 1) b.1
        (r.1, b.2 ++ r.2)
    else
      (m, [])

/-- The figures printed after the loop (lines 365-367). -/
structure Summary (τ : Type) where
  numFramesProcessed : Int
  numSecondsProcessed : τ

/-- The value of a C `int` expression whose mathematical value is `x`
(two's complement, 32 bits). -/
def int32 (x : Int) : Int := (x + 2147483648) % 4294967296 - 2147483648

/-- The frame source, as far as `main` consults it. -/
structure ImageFolderReader (τ : Type) where
  getNumImages : Int
  getPhotometricGamma : Option GammaTable
  getTimestamp : Int → τ

/-- What the thread `runthread` leaves behind. -/
structure RunthreadResult (τ : Type) where
  machine : Machine
  events : List Event
  summary : Summary τ

/-- The body of `runthread` (lines 321-379): the frame loop, `printResult`, and
the two figures computed from `start` and `end`. -/
def runthread {τ : Type} [Sub τ] (beh : EngineBehaviour) (reader : ImageFolderReader τ)
    (start end_ : Int) (m : Machine) : RunthreadResult τ :=
  let l := frameLoop beh reader.getPhotometricGamma end_ (end_ - start).toNat start m
  { machine := l.1
    events := l.2 ++ [Event.printResult l.1.engine "result.txt"]
    summary :=
      { numFramesProcessed := int32 (end_ - start)
        numSecondsProcessed := reader.getTimestamp (end_ - 1) - reader.getTimestamp start } }

/-! ## `parseArgument` (lines 128-285) -/

/-- The characters `isspace` accepts in the C locale. -/
def isspace (c : Char) : Bool :=
  c.toNat = 32 || (9 ≤ c.toNat && c.toNat ≤ 13)

/-- The ordinary characters of a `sscanf` format: each has to be met as it stands;
what is left of the input is returned. -/
def matchLiteral : List Char → List Char → Option (List Char)
  | [], input => some input
  | _ :: _, [] => none
  | c :: cs, d :: ds => if c = d then matchLiteral cs ds else none

/-- The number written by a run of decimal digits. -/
def digitsValue (ds : List Char) : Nat :=
  ds.foldl (fun n c => 10 * n + (c.toNat - 48)) 0

/-- An unsigned run of decimal digits, empty runs refused. -/
def scanDigits (input : List Char) : Option Nat :=
  let ds := input.takeWhile Char.isDigit
  if ds.isEmpty then none else some (digitsValue ds)

/-- The text matched by `%d`: white space is skipped, then an optional sign and
at least one decimal digit are read.  The result is the number written, of any
size. -/
def scanNumber (input : List Char) : Option Int :=
  match input.dropWhile isspace with
  | [] => none
  | c :: rest =>
    if c.toNat = 45 then (scanDigits rest).map (fun n => -(n : Int))
    else if c.toNat = 43 then (scanDigits rest).map (fun n => (n : Int))
    else (scanDigits (c :: rest)).map (fun n => (n : Int))

/-- The `long` that `strtol` returns for the number written `x`: `x` itself when
it fits 64 bits, and the nearest bound of `long` otherwise. -/
def strtol (x : Int) : Int :=
  if x < -9223372036854775808 then -9223372036854775808
  else if 9223372036854775807 < x then 9223372036854775807
  else x

/-- The conversion `%d` into an `int` variable.  A number written that fits an
`int` is stored as it is.  For a number that does not fit, C leaves the result
undefined; the value taken is the one the C library stores, the low 32 bits of
the `long` read by `strtol`.  Either way the variable holds an `int`. -/
def scanInt (input : List Char) : Option Int :=
  (scanNumber input).map (fun x => int32 (strtol x))

/-- The conversion `%s`: white space is skipped, then the characters up to the
next white space are read, at least one. -/
def scanWord (input : List Char) : Option (List Char) :=
  let w := (input.dropWhile isspace).takeWhile (fun c => !isspace c)
  if w.isEmpty then none else some w

/-- The call `sscanf(arg, "key=%d", &option)` with `int option`: `some option` when
it returns 1. -/
def sscanfInt (key : String) (arg : List Char) : Option Int :=
  (matchLiteral key.toList arg).bind scanInt

/-- The call `sscanf(arg, "key=%s", buf)`: `some buf` when it returns 1. -/
def sscanfWord (key : String) (arg : List Char) : Option (List Char) :=
  (matchLiteral key.toList arg).bind scanWord

/-- The initial values of the globals of `util/settings.cpp` (not part of the
sources) that `main` reads. -/
structure Settings where
  disableAllDisplay : Bool
  setting_photometricCalibration : Int
  setting_fullResetRequested : Bool

/-- The globals that decide what `main` does: those of lines 48-59 that it reads,
and those of `util/settings.h`. -/
structure Globals where
  vignette : List Char
  gammaCalib : List Char
  source : List Char
  calib : List Char
  start : Int
  end_ : Int
  useSampleOutput : Bool
  mode : Int
  disableAllDisplay : Bool
  setting_photometricCalibration : Int
  setting_fullResetRequested : Bool

/-- The globals before `main` runs (the initialisers of lines 48-59). -/
def Globals.initial (s : Settings) : Globals :=
  { vignette := [], gammaCalib := [], source := [], calib := []
    start := 0, end_ := 100000, useSampleOutput := false, mode := 0
    disableAllDisplay := s.disableAllDisplay
    setting_photometricCalibration := s.setting_photometricCalibration
    setting_fullResetRequested := s.setting_fullResetRequested }

/-- The function `parseArgument` (lines 128-285), branch by branch and in the
order of the source.  A branch whose assignments reach no global of `Globals`
returns the globals as they are.  For `rescale=%f` only the key is tested: the
keys are pairwise different up to their `=`, so an argument that carries this key
reaches no later branch, whether the number converts or not. -/
def parseArgument (arg : List Char) (g : Globals) : Globals :=
  match sscanfInt "sampleoutput=" arg with
  | some option => if option = 1 then { g with useSampleOutput := true } else g
  | none =>
  match sscanfInt "quiet=" arg with
  | some _ => g
  | none =>
  match sscanfInt "preset=" arg with
  | some _ => g
  | none =>
  match sscanfInt "rec=" arg with
  | some _ => g
  | none =>
  match sscanfInt "noros=" arg with
  | some _ => g
  | none =>
  match sscanfInt "nolog=" arg with
  | some _ => g
  | none =>
  match sscanfInt "nogui=" arg with
  | some option => if option = 1 then { g with disableAllDisplay := true } else g
  | none =>
  match sscanfInt "nomt=" arg with
  | some _ => g
  | none =>
  match sscanfInt "prefetch=" arg with
  | some _ => g
  | none =>
  match sscanfInt "start=" arg with
  | some option => { g with start := option }
  | none =>
  match sscanfInt "end=" arg with
  | some option => { g with end_ := option }
  | none =>
  match sscanfWord "files=" arg with
  | some buf => { g with source := buf }
  | none =>
  match sscanfWord "calib=" arg with
  | some buf => { g with calib := buf }
  | none =>
  match sscanfWord "vignette=" arg with
  | some buf => { g with vignette := buf }
  | none =>
  match sscanfWord "gamma=" arg with
  | some buf => { g with gammaCalib := buf }
  | none =>
  match matchLiteral "rescale=".toList arg with
  | some _ => g
  | none =>
  match sscanfInt "save=" arg with
  | some _ => g
  | none =>
  match sscanfInt "mode=" arg with
  | some option =>
    if option = 1 ∨ option = 2 then
      { g with mode := option, setting_photometricCalibration := 0 }
    else
      { g with mode := option }
  | none => g

/-! ## `main` (lines 287-398) -/

/-- The address of the viewer made at line 312. -/
def viewerWrapper : Output3DWrapper := 1

/-- The address of the sample output wrapper made at line 317. -/
def sampleWrapper : Output3DWrapper := 2

/-- The frame source as a function of the four paths handed to its constructor. -/
abbrev ReaderOf (τ : Type) := List Char → List Char → List Char → List Char → ImageFolderReader τ

/-- Lines 289-290: `for (int i = 1; i < argc; i++) parseArgument(argv[i]);`, the
list `args` being `argv[1], .., argv[argc - 1]`. -/
def parseArguments (args : List (List Char)) (g : Globals) : Globals :=
  args.foldl (fun g arg => parseArgument arg g) g

/-- Lines 289-298: the arguments are parsed, the reader is made, and `end` is
overwritten with the number of images. -/
def setup {τ : Type} (settings : Settings) (openReader : ReaderOf τ)
    (args : List (List Char)) : Globals × ImageFolderReader τ :=
  let g := parseArguments args (Globals.initial settings)
  let reader := openReader g.source g.calib g.gammaCalib g.vignette
  ({ g with end_ := reader.getNumImages }, reader)

/-- Lines 386-389: `for (ow : fullSystem->outputWrapper) { ow->join(); delete ow; }`. -/
def drainWrappers : List Output3DWrapper → List Event
  | [] => []
  | ow :: ows => Event.wrapperJoin ow :: Event.deleteWrapper ow :: drainWrappers ows

/-- Lines 386-395: the sinks of the active engine are joined and deleted one by
one, then the engine and the reader are deleted. -/
def teardown (m : Machine) : List Event :=
  drainWrappers m.fullSystem.outputWrapper
    ++ [Event.deleteFullSystem m.engine, Event.deleteReader]

/-- What a run of `main` amounts to: the exit code and, for each of the two
threads, its events in program order. -/
structure Outcome (τ : Type) where
  exitCode : Int
  mainThread : List Event
  frameThread : List Event
  summary : Option (Summary τ)

/-- The test of lines 300-301:
`setting_photometricCalibration > 0 && reader->getPhotometricGamma() == 0`. -/
def calibrationMissing {τ : Type} (g : Globals) (reader : ImageFolderReader τ) : Bool :=
  decide (0 < g.setting_photometricCalibration) && reader.getPhotometricGamma.isNone

/-- The pointer `viewer` after lines 310-314: null when the display is disabled. -/
def viewerOf (g : Globals) : Option Output3DWrapper :=
  if !g.disableAllDisplay then some viewerWrapper else none

/-- The wrappers pushed on `fullSystem->outputWrapper` by lines 311-317, in the
order of the pushes. -/
def registeredWrappers (g : Globals) : List Output3DWrapper :=
  (viewerOf g).toList ++ (if g.useSampleOutput then [sampleWrapper] else [])

/-- The state in which `runthread` finds the variables of the loop: the first
engine with the registered wrappers. -/
def firstMachine (g : Globals) : Machine :=
  { fullSystem := { FullSystem.new with outputWrapper := registeredWrappers g }
    engine := 0
    setting_fullResetRequested := g.setting_fullResetRequested }

/-- The function `main` (lines 287-398).  The thread `exThread` only waits for
SIGINT and is left out: no signal is delivered in the runs described here. -/
def main {τ : Type} [Sub τ] (beh : EngineBehaviour) (settings : Settings)
    (openReader : ReaderOf τ) (args : List (List Char)) : Outcome τ :=
  let g := (setup settings openReader args).1
  let reader := (setup settings openReader args).2
  let ev0 := [Event.newReader, Event.setGlobalCalibration]
  if calibrationMissing g reader then
    { exitCode := 1, mainThread := ev0, frameThread := [], summary := none }
  else
    let ev1 :=
      [Event.newFullSystem 0, Event.setGammaFunction 0 reader.getPhotometricGamma]
        ++ (if !g.disableAllDisplay then
              [Event.newWrapper viewerWrapper, Event.pushWrapper 0 viewerWrapper] else [])
        ++ (if g.useSampleOutput then
              [Event.newWrapper sampleWrapper, Event.pushWrapper 0 sampleWrapper] else [])
    let run := runthread beh reader g.start g.end_ (firstMachine g)
    let ev2 := (if (viewerOf g).isSome then [Event.viewerRun] else []) ++ [Event.joinRunthread]
    { exitCode := 0
      mainThread := ev0 ++ ev1 ++ [Event.startRunthread] ++ ev2 ++ teardown run.machine
      frameThread := run.events
      summary := some run.summary }

/-! ## Two threads -/

/-- The two threads of `main`. -/
inductive Thread where
  | main
  | runthread
  deriving DecidableEq, Repr

/-- An execution of the two threads: `Schedule started ms rs tr` says that `tr`
is an order in which the events `ms` still ahead of the main thread and the
events `rs` still ahead of `runthread` can happen.  Each thread keeps its program
order; `runthread` does nothing before it is started; `runthread.join()` returns
only once `runthread` has nothing left to do. -/
inductive Schedule : Bool → List Event → List Event → List (Thread × Event) → Prop where
  | done (started : Bool) : Schedule started [] [] []
  | start {ms rs tr} :
      Schedule true ms rs tr →
      Schedule false (Event.startRunthread :: ms) rs ((Thread.main, Event.startRunthread) :: tr)
  | mainStep {started e ms rs tr} :
      e ≠ Event.startRunthread → e ≠ Event.joinRunthread →
      Schedule started ms rs tr →
      Schedule started (e :: ms) rs ((Thread.main, e) :: tr)
  | frameStep {e ms rs tr} :
      Schedule true ms rs tr →
      Schedule true ms (e :: rs) ((Thread.runthread, e) :: tr)
  | join {ms tr} :
      Schedule true ms [] tr →
      Schedule true (Event.joinRunthread :: ms) [] ((Thread.main, Event.joinRunthread) :: tr)

/-! ## Observations on a list of events -/

/-- The indices passed to `addActiveFrame`, in the order of the calls. -/
def submitted : List Event → List Int
  | [] => []
  | Event.addActiveFrame _ i :: tr => i :: submitted tr
  | _ :: tr => submitted tr

/-- Whether an event drains or releases a sink: `ow->join()` or `delete ow`. -/
def Event.isDrain : Event → Bool
  | Event.wrapperJoin _ => true
  | Event.deleteWrapper _ => true
  | _ => false

/-- The events of the thread `runthread` among the events of an execution, in
their order. -/
def frameEvents (tr : List (Thread × Event)) : List Event :=
  (tr.filter (fun x => decide (x.1 = Thread.runthread))).map Prod.snd

/-- Whether an event is a call of `printResult`. -/
def Event.isPrintResult : Event → Bool
  | Event.printResult _ _ => true
  | _ => false

/-- The test of line 338 in the iteration of index `i`:
`fullSystem->initFailed || setting_fullResetRequested`. -/
def resetTriggered (beh : EngineBehaviour) (i : Int) : Bool :=
  (beh i).initFailed || (beh i).fullResetRequested

/-- The value of `fullSystem->isLost` read at line 354 in the iteration of index
`i`: the flag of the engine that received frame `i`, or, after a reset, the flag
of the instance just made. -/
def lostObserved (beh : EngineBehaviour) (i : Int) : Bool :=
  if resetTriggered beh i then FullSystem.new.isLost else (beh i).isLost

/-- The indices `i, i + 1, ..`, `n` of them. -/
def indexRange (i : Int) : Nat → List Int
  | 0 => []
  | n + 1 => i :: indexRange (i + 1) n

/-- An event that leaves the sink collection `ws` as it is: it neither makes nor
deletes nor registers a wrapper, and a list it captures from an engine or
attaches to one is `ws`. -/
def keepsSinks (ws : List Output3DWrapper) : Event → Prop
  | Event.captureWraps _ w => w = ws
  | Event.attachWraps _ w => w = ws
  | Event.newWrapper _ => False
  | Event.pushWrapper _ _ => False
  | Event.deleteWrapper _ => False
  | _ => True

/-- One reset as it shows in a list of events. -/
structure ResetRecord where
  /-- the index submitted last before the sink list was captured -/
  after : Option Int
  /-- the list captured from the retiring engine (line 340) -/
  captured : List Output3DWrapper
  /-- the wrappers whose `reset()` ran after the capture and before the attachment -/
  notified : List Output3DWrapper
  /-- the list attached to the new engine (line 350) -/
  attached : List Output3DWrapper
  deriving DecidableEq, Repr

/-- The resets of a list of events, in order.  A reset opens with the capture of
the sink list and closes with the attachment of a list to the new engine; `last`
is the index submitted last, `window` the captured list and the notifications seen
so far of a reset that is open. -/
def resetLog : Option Int → Option (List Output3DWrapper × List Output3DWrapper) →
    List Event → List ResetRecord
  | _, _, [] => []
  | _, window, Event.addActiveFrame _ i :: tr => resetLog (some i) window tr
  | last, _, Event.captureWraps _ ws :: tr => resetLog last (some (ws, [])) tr
  | last, some (c, n), Event.wrapperReset ow :: tr => resetLog last (some (c, n ++ [ow])) tr
  | last, some (c, n), Event.attachWraps _ ws :: tr =>
      { after := last, captured := c, notified := n, attached := ws } :: resetLog last none tr
  | last, window, _ :: tr => resetLog last window tr

/-- The wrappers whose `reset()` runs outside every reset, that is, not between
the capture of a sink list and the next attachment; `inside` tells whether a reset
is open. -/
def strayResets : Bool → List Event → List Output3DWrapper
  | _, [] => []
  | _, Event.captureWraps _ _ :: tr => strayResets true tr
  | _, Event.attachWraps _ _ :: tr => strayResets false tr
  | true, Event.wrapperReset _ :: tr => strayResets true tr
  | false, Event.wrapperReset ow :: tr => ow :: strayResets false tr
  | inside, _ :: tr => strayResets inside tr

/-- The wrappers whose `reset()` is called, in the order of the calls. -/
def notified : List Event → List Output3DWrapper
  | [] => []
  | Event.wrapperReset ow :: tr => ow :: notified tr
  | _ :: tr => notified tr

/-- The record of a reset that follows the submission of index `i`, captures the
list `ws`, notifies the wrappers of `ws` once each in the order of `ws`, and
attaches `ws` to the new engine. -/
def ResetRecord.regular (ws : List Output3DWrapper) (i : Int) : ResetRecord :=
  { after := some i, captured := ws, notified := ws, attached := ws }

/-- An argument that the branch `end=%d` of `parseArgument` accepts. -/
def isEndToken (arg : List Char) : Bool := (sscanfInt "end=" arg).isSome

/-- The `int` read from the last argument `start=N`, and 0 when there is none. -/
def lastStartToken (args : List (List Char)) : Int :=
  ((args.filterMap (sscanfInt "start=")).getLast?).getD 0

/-- The globals `g` with `end` set to `x`. -/
def Globals.withEnd (g : Globals) (x : Int) : Globals := { g with end_ := x }

/-! ## Inputs of the examples -/

/-- An engine that fails to initialise on frame 1 and asks for a reset on frame 2,
and never reports a loss. -/
def behaviourResets : EngineBehaviour := fun i =>
  { initialized := true, initFailed := decide (i = 1), isLost := false
    fullResetRequested := decide (i = 2) }

/-- A reader of four frames with a gamma table; frame `i` carries the time `10 * i`. -/
def readerFour : ImageFolderReader Int :=
  { getNumImages := 4, getPhotometricGamma := some 7, getTimestamp := fun i => 10 * i }

/-- A first engine with the viewer and the sample wrapper attached. -/
def machineTwoSinks : Machine :=
  { fullSystem := { FullSystem.new with outputWrapper := [viewerWrapper, sampleWrapper] }
    engine := 0
    setting_fullResetRequested := false }

/-- An engine that, on frame 0, both fails to initialise and reports a loss. -/
def behaviourLostAndFailed : EngineBehaviour := fun i =>
  { initialized := false, initFailed := decide (i = 0), isLost := decide (i = 0)
    fullResetRequested := false }

/-- An engine that reports a loss on frame 5 and nothing else. -/
def behaviourLostAtFive : EngineBehaviour := fun i =>
  { initialized := true, initFailed := false, isLost := decide (i = 5)
    fullResetRequested := false }

/-- A reader of ten frames with a gamma table; frame `i` carries the time `10 * i`. -/
def readerTen : ImageFolderReader Int :=
  { getNumImages := 10, getPhotometricGamma := some 7, getTimestamp := fun i => 10 * i }

/-- An engine that fails to initialise on frame 3 and reports nothing else. -/
def behaviourFailsAtThree : EngineBehaviour := fun i =>
  { initialized := true, initFailed := decide (i = 3), isLost := false
    fullResetRequested := false }

/-- Settings under which photometric calibration is required and the display is on. -/
def settingsCalibrated : Settings :=
  { disableAllDisplay := false, setting_photometricCalibration := 2
    setting_fullResetRequested := false }

/-- A frame source of ten frames that has no gamma table, whatever the paths. -/
def openReaderNoGamma : ReaderOf Int := fun _ _ _ _ =>
  { getNumImages := 10, getPhotometricGamma := none, getTimestamp := fun i => 10 * i }

/-- A frame source of ten frames with a gamma table, whatever the paths. -/
def openReaderTen : ReaderOf Int := fun _ _ _ _ => readerTen

/-- A frame source whose number of frames is the length of the path `files=`. -/
def openReaderByPath : ReaderOf Int := fun source _ _ _ =>
  { getNumImages := source.length, getPhotometricGamma := some 7
    getTimestamp := fun i => 10 * i }

/-- An engine that raises no flag. -/
def behaviourQuiet : EngineBehaviour := fun _ =>
  { initialized := true, initFailed := false, isLost := false, fullResetRequested := false }

/-- A frame source of two frames with a gamma table, whatever the paths. -/
def openReaderTwo : ReaderOf Int := fun _ _ _ _ =>
  { getNumImages := 2, getPhotometricGamma := some 7, getTimestamp := fun i => 10 * i }

/-- An execution of `main` on two frames with the viewer and the sample wrapper:
`viewer->run()` returns after the first frame has been handed to the engine, the
frame thread then runs to its end, and the main thread goes on from the join. -/
def executionViewerClosedEarly : List (Thread × Event) :=
  [(Thread.main, Event.newReader),
   (Thread.main, Event.setGlobalCalibration),
   (Thread.main, Event.newFullSystem 0),
   (Thread.main, Event.setGammaFunction 0 (some 7)),
   (Thread.main, Event.newWrapper viewerWrapper),
   (Thread.main, Event.pushWrapper 0 viewerWrapper),
   (Thread.main, Event.newWrapper sampleWrapper),
   (Thread.main, Event.pushWrapper 0 sampleWrapper),
   (Thread.main, Event.startRunthread),
   (Thread.runthread, Event.restartClock),
   (Thread.runthread, Event.getImage 0),
   (Thread.runthread, Event.addActiveFrame 0 0),
   (Thread.main, Event.viewerRun),
   (Thread.runthread, Event.deleteImage 0),
   (Thread.runthread, Event.getImage 1),
   (Thread.runthread, Event.addActiveFrame 0 1),
   (Thread.runthread, Event.deleteImage 1),
   (Thread.runthread, Event.printResult 0 "result.txt"),
   (Thread.main, Event.joinRunthread),
   (Thread.main, Event.wrapperJoin viewerWrapper),
   (Thread.main, Event.deleteWrapper viewerWrapper),
   (Thread.main, Event.wrapperJoin sampleWrapper),
   (Thread.main, Event.deleteWrapper sampleWrapper),
   (Thread.main, Event.deleteFullSystem 0),
   (Thread.main, Event.deleteReader)]

/-! ## The loop, iteration by iteration -/

theorem submitted_append (a b : List Event) :
    submitted (a ++ b) = submitted a ++ submitted b := by
  induction a with
  | nil => rfl
  | cons e a ih => cases e <;> simp [submitted, ih]

theorem submitted_map_wrapperReset (ws : List Output3DWrapper) :
    submitted (ws.map Event.wrapperReset) = [] := by
  induction ws with
  | nil => rfl
  | cons w ws ih => simpa [submitted] using ih

theorem indexRange_eq_map (n : Nat) : ∀ i : Int,
    indexRange i n = (List.range n).map (fun (k : Nat) => i + (k : Int)) := by
  induction n with
  | zero => intro i; rfl
  | succ n ih =>
    intro i
    rw [indexRange, ih, List.range_succ_eq_map]
    simp only [List.map_cons, List.map_map, Nat.cast_zero, add_zero]
    congr 1
    apply List.map_congr_left
    intro k _
    show i + 1 + (k : Int) = i + ((k + 1 : Nat) : Int)
    omega

theorem loopBody_engine (beh : EngineBehaviour) (g : Option GammaTable) (i : Int) (m : Machine) :
    (loopBody beh g i m).1.engine = m.engine + (if resetTriggered beh i then 1 else 0) := by
  unfold loopBody resetTriggered
  by_cases h : ((beh i).initFailed || (beh i).fullResetRequested) = true
  · simp [submitFrame, resetBlock, FullSystem.addActiveFrame, h]
  · simp [submitFrame, resetBlock, FullSystem.addActiveFrame, h]

theorem loopBody_outputWrapper (beh : EngineBehaviour) (g : Option GammaTable) (i : Int)
    (m : Machine) :
    (loopBody beh g i m).1.fullSystem.outputWrapper = m.fullSystem.outputWrapper := by
  unfold loopBody
  by_cases h : ((beh i).initFailed || (beh i).fullResetRequested) = true
  · simp [submitFrame, resetBlock, FullSystem.addActiveFrame, h]
  · simp [submitFrame, resetBlock, FullSystem.addActiveFrame, h]

theorem loopBody_isLost (beh : EngineBehaviour) (g : Option GammaTable) (i : Int) (m : Machine) :
    (loopBody beh g i m).1.fullSystem.isLost = lostObserved beh i := by
  unfold loopBody lostObserved resetTriggered
  by_cases h : ((beh i).initFailed || (beh i).fullResetRequested) = true
  · simp [submitFrame, resetBlock, FullSystem.addActiveFrame, h]
  · simp [submitFrame, resetBlock, FullSystem.addActiveFrame, h]

theorem loopBody_submitted (beh : EngineBehaviour) (g : Option GammaTable) (i : Int)
    (m : Machine) : submitted (loopBody beh g i m).2 = [i] := by
  unfold loopBody
  by_cases h : ((beh i).initFailed || (beh i).fullResetRequested) = true
  · by_cases hc : m.fullSystem.initialized = true <;>
      simp [submitFrame, resetBlock, FullSystem.addActiveFrame, h, hc, submitted_append,
        submitted, submitted_map_wrapperReset]
  · by_cases hc : m.fullSystem.initialized = true <;>
      simp [submitFrame, resetBlock, FullSystem.addActiveFrame, h, hc, submitted_append,
        submitted]

theorem frameLoop_succ (beh : EngineBehaviour) (g : Option GammaTable) (end_ : Int) (fuel : Nat)
    (i : Int) (m : Machine) (h : i < end_) :
    frameLoop beh g end_ (fuel + 1) i m =
      if lostObserved beh i then
        ((loopBody beh g i m).1,
          (loopBody beh g i m).2 ++ [Event.lost (loopBody beh g i m).1.engine])
      else
        ((frameLoop beh g end_ fuel (i + 1) (loopBody beh g i m).1).1,
          (loopBody beh g i m).2 ++ (frameLoop beh g end_ fuel (i + 1) (loopBody beh g i m).1).2) := by
  simp only [frameLoop, h, if_true, loopBody_isLost]

theorem frameLoop_stop (beh : EngineBehaviour) (g : Option GammaTable) (end_ : Int) (fuel : Nat)
    (i : Int) (m : Machine) (h : ¬ i < end_) :
    frameLoop beh g end_ fuel i m = (m, []) := by
  cases fuel with
  | zero => rfl
  | succ n => simp only [frameLoop, h, if_false]

/-- The iterations never outnumber `end - i`: any larger bound gives the same run. -/
theorem frameLoop_fuel (beh : EngineBehaviour) (g : Option GammaTable) (end_ : Int) :
    ∀ (fuel : Nat) (i : Int) (m : Machine), (end_ - i).toNat ≤ fuel →
      frameLoop beh g end_ fuel i m = frameLoop beh g end_ (end_ - i).toNat i m := by
  intro fuel
  induction fuel with
  | zero =>
    intro i m h
    have h0 : (end_ - i).toNat = 0 := by omega
    rw [h0]
  | succ n ih =>
    intro i m h
    by_cases hi : i < end_
    · obtain ⟨k, hk⟩ : ∃ k, (end_ - i).toNat = k + 1 := ⟨(end_ - i).toNat - 1, by omega⟩
      have hk1 : (end_ - (i + 1)).toNat = k := by omega
      rw [hk, frameLoop_succ _ _ _ _ _ _ hi, frameLoop_succ _ _ _ _ _ _ hi]
      rw [ih (i + 1) _ (by omega), hk1]
    · rw [frameLoop_stop _ _ _ _ _ _ hi, frameLoop_stop _ _ _ _ _ _ hi]

theorem mem_indexRange (n : Nat) : ∀ (i x : Int),
    x ∈ indexRange i n ↔ i ≤ x ∧ x < i + (n : Int) := by
  induction n with
  | zero => intro i x; simp [indexRange]
  | succ n ih =>
    intro i x
    simp only [indexRange, List.mem_cons, ih, Nat.cast_succ]
    omega

theorem indexRange_pairwise (n : Nat) : ∀ i : Int, (indexRange i n).Pairwise (· < ·) := by
  induction n with
  | zero => intro i; simp [indexRange]
  | succ n ih =>
    intro i
    simp only [indexRange, List.pairwise_cons]
    refine ⟨?_, ih (i + 1)⟩
    intro x hx
    rw [mem_indexRange] at hx
    omega

theorem indexRange_length (n : Nat) : ∀ i : Int, (indexRange i n).length = n := by
  induction n with
  | zero => intro i; rfl
  | succ n ih => intro i; simp [indexRange, ih]

theorem indexRange_count (n : Nat) (i x : Int) (h1 : i ≤ x) (h2 : x < i + (n : Int)) :
    (indexRange i n).count x = 1 :=
  List.count_eq_one_of_mem ((indexRange_pairwise n i).imp (fun h => ne_of_lt h))
    ((mem_indexRange n i x).2 ⟨h1, h2⟩)

theorem indexRange_count_le (n : Nat) (i x : Int) : (indexRange i n).count x ≤ 1 :=
  List.nodup_iff_count_le_one.1 ((indexRange_pairwise n i).imp (fun h => ne_of_lt h)) x

/-- While the test of line 354 never reads `true`, the loop entered at `i` submits
`i, i + 1, ..` up to the bound. -/
theorem frameLoop_submitted_of_not_lost (beh : EngineBehaviour) (g : Option GammaTable)
    (end_ : Int) : ∀ (fuel : Nat) (i : Int) (m : Machine),
      (∀ j, i ≤ j → j < end_ → lostObserved beh j = false) →
      submitted (frameLoop beh g end_ fuel i m).2 = indexRange i (min fuel (end_ - i).toNat) := by
  intro fuel
  induction fuel with
  | zero => intro i m _; simp [frameLoop, submitted, indexRange]
  | succ n ih =>
    intro i m h
    by_cases hi : i < end_
    · have hm : min (n + 1) (end_ - i).toNat = min n (end_ - (i + 1)).toNat + 1 := by omega
      rw [frameLoop_succ _ _ _ _ _ _ hi, h i (le_refl i) hi, hm]
      simp only [Bool.false_eq_true, if_false, submitted_append, loopBody_submitted, indexRange]
      rw [ih (i + 1) _ (fun j hj hje => h j (by omega) hje)]
      rfl
    · have hm : min (n + 1) (end_ - i).toNat = 0 := by omega
      rw [frameLoop_stop _ _ _ _ _ _ hi, hm]
      rfl

theorem runthread_submitted {τ : Type} [Sub τ] (beh : EngineBehaviour)
    (reader : ImageFolderReader τ) (start end_ : Int) (m : Machine) :
    submitted (runthread beh reader start end_ m).events =
      submitted (frameLoop beh reader.getPhotometricGamma end_ (end_ - start).toNat start m).2 := by
  simp [runthread, submitted_append, submitted]

theorem loopBody_events_no_reset (beh : EngineBehaviour) (g : Option GammaTable) (i : Int)
    (m : Machine) (h : resetTriggered beh i = false) :
    (loopBody beh g i m).2 =
      (if !m.fullSystem.initialized then [Event.restartClock] else [])
        ++ [Event.getImage i, Event.addActiveFrame m.engine i, Event.deleteImage i] := by
  unfold resetTriggered at h
  unfold loopBody
  simp [submitFrame, FullSystem.addActiveFrame, h]

theorem lostObserved_eq_true (beh : EngineBehaviour) (i : Int) :
    lostObserved beh i = true ↔ (beh i).isLost = true ∧ resetTriggered beh i = false := by
  unfold lostObserved
  by_cases h : resetTriggered beh i = true
  · simp [h, FullSystem.new]
  · simp [h]

theorem mem_submitted_frameLoop (beh : EngineBehaviour) (g : Option GammaTable) (end_ : Int) :
    ∀ (fuel : Nat) (i : Int) (m : Machine) (j : Int),
      j ∈ submitted (frameLoop beh g end_ fuel i m).2 → i ≤ j ∧ j < end_ := by
  intro fuel
  induction fuel with
  | zero => intro i m j h; simp [frameLoop, submitted] at h
  | succ n ih =>
    intro i m j h
    by_cases hi : i < end_
    · rw [frameLoop_succ _ _ _ _ _ _ hi] at h
      by_cases hl : lostObserved beh i = true
      · simp [hl, submitted_append, loopBody_submitted, submitted] at h
        omega
      · simp [hl, submitted_append, loopBody_submitted] at h
        rcases h with h | h
        · omega
        · have := ih _ _ _ h
          omega
    · rw [frameLoop_stop _ _ _ _ _ _ hi] at h
      simp [submitted] at h

/-- Once the test of line 354 reads `true` after frame `j`, the loop ends with the
events of that submission followed by the `break`, and `j` is the largest index
submitted. -/
theorem frameLoop_lost_stops (beh : EngineBehaviour) (g : Option GammaTable) (end_ : Int) :
    ∀ (fuel : Nat) (i : Int) (m : Machine) (j : Int),
      j ∈ submitted (frameLoop beh g end_ fuel i m).2 → lostObserved beh j = true →
      (∃ pre e, (frameLoop beh g end_ fuel i m).2 =
          pre ++ [Event.addActiveFrame e j, Event.deleteImage j, Event.lost e]
          ∧ (frameLoop beh g end_ fuel i m).1.engine = e)
      ∧ ∀ k ∈ submitted (frameLoop beh g end_ fuel i m).2, k ≤ j := by
  intro fuel
  induction fuel with
  | zero => intro i m j h; simp [frameLoop, submitted] at h
  | succ n ih =>
    intro i m j h hj
    by_cases hi : i < end_
    · rw [frameLoop_succ _ _ _ _ _ _ hi] at h ⊢
      by_cases hl : lostObserved beh i = true
      · simp only [hl, if_true, submitted_append, loopBody_submitted, submitted,
          List.append_nil, List.mem_singleton] at h ⊢
        subst h
        have hr := ((lostObserved_eq_true beh j).1 hl).2
        refine ⟨⟨(if !m.fullSystem.initialized then [Event.restartClock] else [])
            ++ [Event.getImage j], m.engine, ?_, ?_⟩, ?_⟩
        · rw [loopBody_events_no_reset _ _ _ _ hr, loopBody_engine, hr]
          simp
        · rw [loopBody_engine, hr]
          simp
        · intro k hk
          omega
      · simp only [hl, Bool.false_eq_true, if_false, submitted_append, loopBody_submitted,
          List.singleton_append, List.mem_cons] at h ⊢
        rcases h with h | h
        · subst h
          exact absurd hj hl
        · obtain ⟨⟨pre, e, hpre, he⟩, hmax⟩ := ih _ _ _ h hj
          refine ⟨⟨(loopBody beh g i m).2 ++ pre, e, ?_, he⟩, ?_⟩
          · rw [hpre, List.append_assoc]
          · intro k hk
            rcases hk with hk | hk
            · have := (mem_submitted_frameLoop _ _ _ _ _ _ _ h).1
              omega
            · exact hmax k hk
    · rw [frameLoop_stop _ _ _ _ _ _ hi] at h
      simp [submitted] at h

theorem resetBlock_keepsSinks (g : Option GammaTable) (m : Machine) :
    ∀ ev ∈ (resetBlock g m).2, keepsSinks m.fullSystem.outputWrapper ev := by
  intro ev hev
  simp only [resetBlock, List.mem_append, List.mem_cons, List.mem_map, List.mem_singleton,
    List.not_mem_nil, or_false] at hev
  rcases hev with (h | h) | h
  · rcases h with h | h <;> subst h <;> simp [keepsSinks]
  · obtain ⟨ow, _, h⟩ := h
    subst h
    simp [keepsSinks]
  · rcases h with h | h | h | h | h <;> subst h <;> simp [keepsSinks]

theorem loopBody_keepsSinks (beh : EngineBehaviour) (g : Option GammaTable) (i : Int)
    (m : Machine) : ∀ ev ∈ (loopBody beh g i m).2, keepsSinks m.fullSystem.outputWrapper ev := by
  intro ev hev
  unfold loopBody at hev
  have hsub : ∀ ev ∈ (if !m.fullSystem.initialized then [Event.restartClock] else [])
      ++ (submitFrame beh i m).2, keepsSinks m.fullSystem.outputWrapper ev := by
    intro ev hev
    by_cases hc : m.fullSystem.initialized = true
    · simp [hc, submitFrame] at hev
      rcases hev with h | h | h <;> subst h <;> simp [keepsSinks]
    · simp [hc, submitFrame] at hev
      rcases hev with h | h | h | h <;> subst h <;> simp [keepsSinks]
  by_cases h : ((submitFrame beh i m).1.fullSystem.initFailed
      || (submitFrame beh i m).1.setting_fullResetRequested) = true
  · simp only [h, if_true, List.mem_append] at hev
    rcases hev with hev | hev
    · exact hsub ev (List.mem_append.2 hev)
    · have := resetBlock_keepsSinks g (submitFrame beh i m).1 ev hev
      simpa [submitFrame, FullSystem.addActiveFrame] using this
  · simp only [h, Bool.false_eq_true, if_false] at hev
    exact hsub ev hev

theorem frameLoop_keepsSinks (beh : EngineBehaviour) (g : Option GammaTable) (end_ : Int) :
    ∀ (fuel : Nat) (i : Int) (m : Machine),
      (frameLoop beh g end_ fuel i m).1.fullSystem.outputWrapper = m.fullSystem.outputWrapper
      ∧ ∀ ev ∈ (frameLoop beh g end_ fuel i m).2, keepsSinks m.fullSystem.outputWrapper ev := by
  intro fuel
  induction fuel with
  | zero => intro i m; simp [frameLoop]
  | succ n ih =>
    intro i m
    by_cases hi : i < end_
    · rw [frameLoop_succ _ _ _ _ _ _ hi]
      by_cases hl : lostObserved beh i = true
      · simp only [hl, if_true, loopBody_outputWrapper, List.mem_append, List.mem_singleton,
          true_and]
        intro ev hev
        rcases hev with hev | hev
        · exact loopBody_keepsSinks _ _ _ _ ev hev
        · subst hev
          simp [keepsSinks]
      · have h1 := ih (i + 1) (loopBody beh g i m).1
        rw [loopBody_outputWrapper] at h1
        simp only [hl, Bool.false_eq_true, if_false, List.mem_append]
        refine ⟨h1.1, ?_⟩
        intro ev hev
        rcases hev with hev | hev
        · exact loopBody_keepsSinks _ _ _ _ ev hev
        · exact h1.2 ev hev
    · rw [frameLoop_stop _ _ _ _ _ _ hi]
      simp

theorem resetLog_map_wrapperReset (last : Option Int) (rest : List Event) :
    ∀ (ws c n : List Output3DWrapper),
      resetLog last (some (c, n)) (ws.map Event.wrapperReset ++ rest)
        = resetLog last (some (c, n ++ ws)) rest := by
  intro ws
  induction ws with
  | nil => intro c n; simp
  | cons w ws ih =>
    intro c n
    have h := ih c (n ++ [w])
    simp only [List.append_assoc, List.singleton_append] at h
    simpa [resetLog] using h

theorem loopBody_resetLog (beh : EngineBehaviour) (g : Option GammaTable) (i : Int)
    (m : Machine) (last : Option Int) (rest : List Event) :
    resetLog last none ((loopBody beh g i m).2 ++ rest)
      = (if resetTriggered beh i then [ResetRecord.regular m.fullSystem.outputWrapper i]
         else []) ++ resetLog (some i) none rest := by
  unfold loopBody resetTriggered ResetRecord.regular
  by_cases h : ((beh i).initFailed || (beh i).fullResetRequested) = true
  · by_cases hc : m.fullSystem.initialized = true <;>
      simp [submitFrame, resetBlock, FullSystem.addActiveFrame, h, hc, resetLog,
        resetLog_map_wrapperReset]
  · by_cases hc : m.fullSystem.initialized = true <;>
      simp [submitFrame, resetBlock, FullSystem.addActiveFrame, h, hc, resetLog]

theorem frameLoop_resetLog (beh : EngineBehaviour) (g : Option GammaTable) (end_ : Int) :
    ∀ (fuel : Nat) (i : Int) (m : Machine) (last : Option Int) (rest : List Event),
      ∃ last', resetLog last none ((frameLoop beh g end_ fuel i m).2 ++ rest)
        = ((submitted (frameLoop beh g end_ fuel i m).2).filter (resetTriggered beh)).map
            (ResetRecord.regular m.fullSystem.outputWrapper)
          ++ resetLog last' none rest := by
  intro fuel
  induction fuel with
  | zero => intro i m last rest; exact ⟨last, by simp [frameLoop, submitted]⟩
  | succ n ih =>
    intro i m last rest
    by_cases hi : i < end_
    · rw [frameLoop_succ _ _ _ _ _ _ hi]
      by_cases hl : lostObserved beh i = true
      · refine ⟨some i, ?_⟩
        simp only [hl, if_true, List.append_assoc, loopBody_resetLog, submitted_append,
          loopBody_submitted, submitted, List.append_nil, List.singleton_append, resetLog]
        by_cases ht : resetTriggered beh i = true <;> simp [ht, List.filter]
      · obtain ⟨last', h'⟩ := ih (i + 1) (loopBody beh g i m).1 (some i) rest
        refine ⟨last', ?_⟩
        simp only [hl, Bool.false_eq_true, if_false, List.append_assoc, loopBody_resetLog,
          submitted_append, loopBody_submitted, h', loopBody_outputWrapper]
        by_cases ht : resetTriggered beh i = true <;> simp [ht, List.filter]
    · exact ⟨last, by simp [frameLoop_stop _ _ _ _ _ _ hi, submitted]⟩

theorem strayResets_map_wrapperReset (rest : List Event) :
    ∀ ws : List Output3DWrapper,
      strayResets true (ws.map Event.wrapperReset ++ rest) = strayResets true rest := by
  intro ws
  induction ws with
  | nil => simp
  | cons w ws ih => simpa [strayResets] using ih

theorem loopBody_strayResets (beh : EngineBehaviour) (g : Option GammaTable) (i : Int)
    (m : Machine) (rest : List Event) :
    strayResets false ((loopBody beh g i m).2 ++ rest) = strayResets false rest := by
  unfold loopBody
  by_cases h : ((beh i).initFailed || (beh i).fullResetRequested) = true
  · by_cases hc : m.fullSystem.initialized = true <;>
      simp [submitFrame, resetBlock, FullSystem.addActiveFrame, h, hc, strayResets,
        strayResets_map_wrapperReset]
  · by_cases hc : m.fullSystem.initialized = true <;>
      simp [submitFrame, resetBlock, FullSystem.addActiveFrame, h, hc, strayResets]

theorem frameLoop_strayResets (beh : EngineBehaviour) (g : Option GammaTable) (end_ : Int) :
    ∀ (fuel : Nat) (i : Int) (m : Machine) (rest : List Event),
      strayResets false ((frameLoop beh g end_ fuel i m).2 ++ rest) = strayResets false rest := by
  intro fuel
  induction fuel with
  | zero => intro i m rest; simp [frameLoop]
  | succ n ih =>
    intro i m rest
    by_cases hi : i < end_
    · rw [frameLoop_succ _ _ _ _ _ _ hi]
      by_cases hl : lostObserved beh i = true
      · simp [hl, loopBody_strayResets, strayResets]
      · simp [hl, loopBody_strayResets, ih]
    · simp [frameLoop_stop _ _ _ _ _ _ hi]

theorem notified_append (a b : List Event) : notified (a ++ b) = notified a ++ notified b := by
  induction a with
  | nil => rfl
  | cons e a ih => cases e <;> simp [notified, ih]

theorem notified_map_wrapperReset (ws : List Output3DWrapper) :
    notified (ws.map Event.wrapperReset) = ws := by
  induction ws with
  | nil => rfl
  | cons w ws ih => simpa [notified] using ih

theorem loopBody_notified (beh : EngineBehaviour) (g : Option GammaTable) (i : Int)
    (m : Machine) :
    notified (loopBody beh g i m).2
      = if resetTriggered beh i then m.fullSystem.outputWrapper else [] := by
  unfold loopBody resetTriggered
  by_cases h : ((beh i).initFailed || (beh i).fullResetRequested) = true
  · by_cases hc : m.fullSystem.initialized = true <;>
      simp [submitFrame, resetBlock, FullSystem.addActiveFrame, h, hc, notified,
        notified_append, notified_map_wrapperReset]
  · by_cases hc : m.fullSystem.initialized = true <;>
      simp [submitFrame, resetBlock, FullSystem.addActiveFrame, h, hc, notified,
        notified_append]

theorem frameLoop_notified (beh : EngineBehaviour) (g : Option GammaTable) (end_ : Int) :
    ∀ (fuel : Nat) (i : Int) (m : Machine),
      notified (frameLoop beh g end_ fuel i m).2
        = (((submitted (frameLoop beh g end_ fuel i m).2).filter (resetTriggered beh)).map
            (fun _ => m.fullSystem.outputWrapper)).flatten := by
  intro fuel
  induction fuel with
  | zero => intro i m; simp [frameLoop, submitted, notified]
  | succ n ih =>
    intro i m
    by_cases hi : i < end_
    · rw [frameLoop_succ _ _ _ _ _ _ hi]
      by_cases hl : lostObserved beh i = true
      · simp only [hl, if_true, notified_append, loopBody_notified, submitted_append,
          loopBody_submitted, submitted, notified, List.append_nil]
        by_cases ht : resetTriggered beh i = true <;> simp [ht, List.filter]
      · simp only [hl, Bool.false_eq_true, if_false, notified_append, loopBody_notified,
          submitted_append, loopBody_submitted, ih, loopBody_outputWrapper]
        by_cases ht : resetTriggered beh i = true <;> simp [ht, List.filter]
    · simp [frameLoop_stop _ _ _ _ _ _ hi, submitted, notified]

/-- The indices submitted by the loop entered at `i` are `i, i + 1, ..`. -/
theorem frameLoop_submitted_range (beh : EngineBehaviour) (g : Option GammaTable) (end_ : Int) :
    ∀ (fuel : Nat) (i : Int) (m : Machine),
      ∃ n, submitted (frameLoop beh g end_ fuel i m).2 = indexRange i n := by
  intro fuel
  induction fuel with
  | zero => intro i m; exact ⟨0, by simp [frameLoop, submitted, indexRange]⟩
  | succ n ih =>
    intro i m
    by_cases hi : i < end_
    · rw [frameLoop_succ _ _ _ _ _ _ hi]
      by_cases hl : lostObserved beh i = true
      · exact ⟨1, by simp [hl, submitted_append, loopBody_submitted, submitted, indexRange]⟩
      · obtain ⟨k, hk⟩ := ih (i + 1) (loopBody beh g i m).1
        exact ⟨k + 1, by simp [hl, submitted_append, loopBody_submitted, hk, indexRange]⟩
    · exact ⟨0, by simp [frameLoop_stop _ _ _ _ _ _ hi, submitted, indexRange]⟩

theorem filter_eq_singleton (p : Int → Bool) : ∀ (l : List Int) (k : Int),
    l.Nodup → k ∈ l → p k = true → (∀ j ∈ l, j ≠ k → p j = false) → l.filter p = [k] := by
  intro l
  induction l with
  | nil => intro k _ hk; simp at hk
  | cons a l ih =>
    intro k hnd hk hp hq
    rw [List.nodup_cons] at hnd
    by_cases hak : a = k
    · subst hak
      have hrest : l.filter p = [] := by
        rw [List.filter_eq_nil_iff]
        intro j hj
        have hne : j ≠ a := fun h => hnd.1 (h ▸ hj)
        simp [hq j (List.mem_cons_of_mem _ hj) hne]
      simp [List.filter, hp, hrest]
    · have hk' : k ∈ l := by
        rcases List.mem_cons.1 hk with h | h
        · exact absurd h.symm hak
        · exact h
      have ha : p a = false := hq a (List.mem_cons_self _ _) hak
      simp only [List.filter, ha]
      exact ih k hnd.2 hk' hp (fun j hj hne => hq j (List.mem_cons_of_mem _ hj) hne)

/-- A notification found in `notifications ++ tail`, where `tail` holds none, sits
among the notifications. -/
theorem split_at_wrapperReset (tail : List Event) (htail : ∀ ow, Event.wrapperReset ow ∉ tail) :
    ∀ (ws : List Output3DWrapper) (pre post : List Event) (ow : Output3DWrapper),
      pre ++ Event.wrapperReset ow :: post = ws.map Event.wrapperReset ++ tail →
      ∃ ws1 ws2, ws = ws1 ++ ow :: ws2 ∧ pre = ws1.map Event.wrapperReset
        ∧ post = ws2.map Event.wrapperReset ++ tail := by
  intro ws
  induction ws with
  | nil =>
    intro pre post ow h
    exfalso
    apply htail ow
    simp only [List.map_nil, List.nil_append] at h
    rw [← h]
    simp
  | cons w ws ih =>
    intro pre post ow h
    cases pre with
    | nil =>
      simp only [List.nil_append, List.map_cons, List.cons_append, List.cons.injEq,
        Event.wrapperReset.injEq] at h
      exact ⟨[], ws, by simp [h.1], rfl, h.2⟩
    | cons p pre =>
      simp only [List.cons_append, List.map_cons, List.cons.injEq] at h
      obtain ⟨ws1, ws2, h1, h2, h3⟩ := ih pre post ow h.2
      exact ⟨w :: ws1, ws2, by simp [h1], by simp [h.1, h2], h3⟩

/-- The loop entered at `i` with enough iterations ahead, when the test of line
354 reads `true` after frame `k` and not before: the indices submitted are
`i, .., k`. -/
theorem frameLoop_submitted_until_lost (beh : EngineBehaviour) (g : Option GammaTable)
    (end_ : Int) : ∀ (fuel : Nat) (i : Int) (m : Machine) (k : Int),
      i ≤ k → k < end_ → (k - i).toNat < fuel →
      (∀ j, i ≤ j → j < k → lostObserved beh j = false) → lostObserved beh k = true →
      submitted (frameLoop beh g end_ fuel i m).2 = indexRange i ((k - i).toNat + 1) := by
  intro fuel
  induction fuel with
  | zero => intro i m k _ _ h; omega
  | succ n ih =>
    intro i m k hik hk hfuel hbefore hlost
    have hi : i < end_ := by omega
    rw [frameLoop_succ _ _ _ _ _ _ hi]
    by_cases hki : k = i
    · subst hki
      simp [hlost, submitted_append, loopBody_submitted, submitted, indexRange]
    · have hn : (k - i).toNat = (k - (i + 1)).toNat + 1 := by omega
      rw [hbefore i (le_refl i) (by omega), hn]
      simp only [Bool.false_eq_true, if_false, submitted_append, loopBody_submitted]
      rw [ih (i + 1) _ k (by omega) hk (by omega) (fun j hj hjk => hbefore j (by omega) hjk)
        hlost]
      rfl

/-- When the test of line 354 reads `true` after a submitted frame `k`, the indices
submitted by the loop entered at `i` are `i, .., k`. -/
theorem frameLoop_submitted_of_lost (beh : EngineBehaviour) (g : Option GammaTable)
    (end_ : Int) : ∀ (fuel : Nat) (i : Int) (m : Machine) (k : Int),
      k ∈ submitted (frameLoop beh g end_ fuel i m).2 → lostObserved beh k = true →
      submitted (frameLoop beh g end_ fuel i m).2 = indexRange i ((k - i).toNat + 1) := by
  intro fuel
  induction fuel with
  | zero => intro i m k h; simp [frameLoop, submitted] at h
  | succ n ih =>
    intro i m k h hlost
    by_cases hi : i < end_
    · rw [frameLoop_succ _ _ _ _ _ _ hi] at h ⊢
      by_cases hl : lostObserved beh i = true
      · simp only [hl, if_true, submitted_append, loopBody_submitted, submitted,
          List.append_nil, List.mem_singleton] at h ⊢
        subst h
        simp [indexRange]
      · simp only [hl, Bool.false_eq_true, if_false, submitted_append, loopBody_submitted,
          List.singleton_append, List.mem_cons] at h ⊢
        rcases h with h | h
        · subst h
          exact absurd hlost hl
        · have hb := (mem_submitted_frameLoop _ _ _ _ _ _ _ h).1
          have hn : (k - i).toNat = (k - (i + 1)).toNat + 1 := by omega
          rw [ih _ _ _ h hlost, hn]
          rfl
    · rw [frameLoop_stop _ _ _ _ _ _ hi] at h
      simp [submitted] at h

theorem printResult_not_mem_loopBody (beh : EngineBehaviour) (g : Option GammaTable) (i : Int)
    (m : Machine) (e : Nat) (f : String) : Event.printResult e f ∉ (loopBody beh g i m).2 := by
  unfold loopBody
  by_cases h : ((beh i).initFailed || (beh i).fullResetRequested) = true
  · by_cases hc : m.fullSystem.initialized = true <;>
      simp [submitFrame, resetBlock, FullSystem.addActiveFrame, h, hc]
  · by_cases hc : m.fullSystem.initialized = true <;>
      simp [submitFrame, resetBlock, FullSystem.addActiveFrame, h, hc]

theorem printResult_not_mem_frameLoop (beh : EngineBehaviour) (g : Option GammaTable)
    (end_ : Int) (e : Nat) (f : String) : ∀ (fuel : Nat) (i : Int) (m : Machine),
      Event.printResult e f ∉ (frameLoop beh g end_ fuel i m).2 := by
  intro fuel
  induction fuel with
  | zero => intro i m; simp [frameLoop]
  | succ n ih =>
    intro i m
    by_cases hi : i < end_
    · rw [frameLoop_succ _ _ _ _ _ _ hi]
      by_cases hl : lostObserved beh i = true
      · simp [hl, printResult_not_mem_loopBody]
      · simp [hl, printResult_not_mem_loopBody, ih]
    · simp [frameLoop_stop _ _ _ _ _ _ hi]

theorem printResult_not_mem_drainWrappers (e : Nat) (f : String) :
    ∀ ws : List Output3DWrapper, Event.printResult e f ∉ drainWrappers ws := by
  intro ws
  induction ws with
  | nil => simp [drainWrappers]
  | cons w ws ih => simp [drainWrappers, ih]

theorem filter_isPrintResult_frameLoop (beh : EngineBehaviour) (g : Option GammaTable)
    (end_ : Int) (fuel : Nat) (i : Int) (m : Machine) :
    (frameLoop beh g end_ fuel i m).2.filter Event.isPrintResult = [] := by
  rw [List.filter_eq_nil_iff]
  intro ev hev hp
  cases ev with
  | printResult e f => exact printResult_not_mem_frameLoop beh g end_ e f fuel i m hev
  | _ => simp [Event.isPrintResult] at hp

theorem int32_of_fits (x : Int) (h1 : -2147483648 ≤ x) (h2 : x ≤ 2147483647) : int32 x = x := by
  unfold int32
  omega

/-! ## The arguments -/

theorem matchLiteral_eq_some : ∀ (lit arg rest : List Char),
    matchLiteral lit arg = some rest → arg = lit ++ rest := by
  intro lit
  induction lit with
  | nil => intro arg rest h; simpa [matchLiteral] using h
  | cons c cs ih =>
    intro arg rest h
    cases arg with
    | nil => simp [matchLiteral] at h
    | cons d ds =>
      by_cases hcd : c = d
      · simp only [matchLiteral, hcd, if_true] at h
        rw [hcd, ih ds rest h]
        rfl
      · simp [matchLiteral, hcd] at h

theorem sscanfInt_eq_some (key : String) (arg : List Char) (n : Int)
    (h : sscanfInt key arg = some n) : ∃ rest, arg = key.toList ++ rest := by
  unfold sscanfInt at h
  cases hm : matchLiteral key.toList arg with
  | none => rw [hm] at h; simp at h
  | some rest => exact ⟨rest, matchLiteral_eq_some _ _ _ hm⟩

theorem parseArgument_end (arg : List Char) (g : Globals) (n : Int)
    (h : sscanfInt "end=" arg = some n) : parseArgument arg g = { g with end_ := n } := by
  obtain ⟨rest, hr⟩ := sscanfInt_eq_some _ _ _ h
  subst hr
  have h1 : sscanfInt "sampleoutput=" ("end=".toList ++ rest) = none := rfl
  have h2 : sscanfInt "quiet=" ("end=".toList ++ rest) = none := rfl
  have h3 : sscanfInt "preset=" ("end=".toList ++ rest) = none := rfl
  have h4 : sscanfInt "rec=" ("end=".toList ++ rest) = none := rfl
  have h5 : sscanfInt "noros=" ("end=".toList ++ rest) = none := rfl
  have h6 : sscanfInt "nolog=" ("end=".toList ++ rest) = none := rfl
  have h7 : sscanfInt "nogui=" ("end=".toList ++ rest) = none := rfl
  have h8 : sscanfInt "nomt=" ("end=".toList ++ rest) = none := rfl
  have h9 : sscanfInt "prefetch=" ("end=".toList ++ rest) = none := rfl
  have h10 : sscanfInt "start=" ("end=".toList ++ rest) = none := rfl
  simp only [parseArgument, h1, h2, h3, h4, h5, h6, h7, h8, h9, h10, h]

theorem parseArgument_withEnd (arg : List Char) (g : Globals) (x : Int) :
    (parseArgument arg (g.withEnd x)).withEnd 0 = (parseArgument arg g).withEnd 0 := by
  simp only [parseArgument]
  repeat' split
  all_goals simp_all [Globals.withEnd]


theorem parseArgument_start_some (arg : List Char) (g : Globals) (n : Int)
    (h : sscanfInt "start=" arg = some n) : (parseArgument arg g).start = n := by
  obtain ⟨rest, hr⟩ := sscanfInt_eq_some _ _ _ h
  subst hr
  have h1 : sscanfInt "sampleoutput=" ("start=".toList ++ rest) = none := rfl
  have h2 : sscanfInt "quiet=" ("start=".toList ++ rest) = none := rfl
  have h3 : sscanfInt "preset=" ("start=".toList ++ rest) = none := rfl
  have h4 : sscanfInt "rec=" ("start=".toList ++ rest) = none := rfl
  have h5 : sscanfInt "noros=" ("start=".toList ++ rest) = none := rfl
  have h6 : sscanfInt "nolog=" ("start=".toList ++ rest) = none := rfl
  have h7 : sscanfInt "nogui=" ("start=".toList ++ rest) = none := rfl
  have h8 : sscanfInt "nomt=" ("start=".toList ++ rest) = none := rfl
  have h9 : sscanfInt "prefetch=" ("start=".toList ++ rest) = none := rfl
  simp only [parseArgument, h1, h2, h3, h4, h5, h6, h7, h8, h9, h]

theorem parseArgument_start_none (arg : List Char) (g : Globals)
    (h : sscanfInt "start=" arg = none) : (parseArgument arg g).start = g.start := by
  simp only [parseArgument]
  repeat' split
  all_goals simp_all

theorem parseArguments_start : ∀ (args : List (List Char)) (g : Globals),
    (parseArguments args g).start
      = ((args.filterMap (sscanfInt "start=")).getLast?).getD g.start := by
  intro args
  induction args with
  | nil => intro g; rfl
  | cons a args ih =>
    intro g
    have hstep : parseArguments (a :: args) g = parseArguments args (parseArgument a g) := rfl
    rw [hstep, ih]
    cases h : sscanfInt "start=" a with
    | none => simp [List.filterMap_cons, h, parseArgument_start_none a g h]
    | some n =>
      rw [parseArgument_start_some a g n h]
      simp only [List.filterMap_cons, h]
      cases hl : List.filterMap (sscanfInt "start=") args with
      | nil => simp
      | cons b l =>
        have hne : b :: l ≠ [] := List.cons_ne_nil b l
        simp [List.getLast?_cons_cons, List.getLast?_eq_getLast _ hne]

theorem withEnd_parseArgument_end (arg : List Char) (g : Globals) (h : isEndToken arg = true) :
    (parseArgument arg g).withEnd 0 = g.withEnd 0 := by
  unfold isEndToken at h
  cases hn : sscanfInt "end=" arg with
  | none => simp [hn] at h
  | some n => rw [parseArgument_end arg g n hn]; rfl

theorem withEnd_parseArguments : ∀ (args : List (List Char)) (g : Globals) (x : Int),
    (parseArguments args (g.withEnd x)).withEnd 0 = (parseArguments args g).withEnd 0 := by
  intro args
  induction args with
  | nil => intro g x; rfl
  | cons a args ih =>
    intro g x
    have h1 : parseArguments (a :: args) (g.withEnd x)
        = parseArguments args (parseArgument a (g.withEnd x)) := rfl
    have h2 : parseArguments (a :: args) g = parseArguments args (parseArgument a g) := rfl
    have e1 : parseArgument a (g.withEnd x)
        = ((parseArgument a (g.withEnd x)).withEnd 0).withEnd (parseArgument a (g.withEnd x)).end_ :=
      rfl
    have e2 : parseArgument a g
        = ((parseArgument a g).withEnd 0).withEnd (parseArgument a g).end_ := rfl
    rw [h1, h2, e1, e2, ih, ih (Globals.withEnd (parseArgument a g) 0), parseArgument_withEnd]

theorem withEnd_parseArguments_filter : ∀ (args : List (List Char)) (g : Globals),
    (parseArguments (args.filter (fun a => !isEndToken a)) g).withEnd 0
      = (parseArguments args g).withEnd 0 := by
  intro args
  induction args with
  | nil => intro g; rfl
  | cons a args ih =>
    intro g
    have h2 : parseArguments (a :: args) g = parseArguments args (parseArgument a g) := rfl
    by_cases he : isEndToken a = true
    · rw [h2]
      simp only [List.filter_cons, he, Bool.not_true, Bool.false_eq_true, if_false]
      have e2 : parseArgument a g
          = ((parseArgument a g).withEnd 0).withEnd (parseArgument a g).end_ := rfl
      rw [ih, e2, withEnd_parseArguments, withEnd_parseArgument_end a g he,
        withEnd_parseArguments]
    · simp only [List.filter_cons, he, Bool.not_false, if_true]
      have h3 : parseArguments (a :: List.filter (fun a => !isEndToken a) args) g
          = parseArguments (List.filter (fun a => !isEndToken a) args) (parseArgument a g) := rfl
      rw [h3, h2, ih]

theorem int32_range (x : Int) : -2147483648 ≤ int32 x ∧ int32 x ≤ 2147483647 := by
  unfold int32
  omega

theorem strtol_of_fits (x : Int) (h1 : -2147483648 ≤ x) (h2 : x ≤ 2147483647) :
    strtol x = x := by
  unfold strtol
  rw [if_neg (by omega), if_neg (by omega)]

/-- What `%d` stores is an `int`. -/
theorem sscanfInt_range (key : String) (arg : List Char) (v : Int)
    (h : sscanfInt key arg = some v) : -2147483648 ≤ v ∧ v ≤ 2147483647 := by
  unfold sscanfInt at h
  cases hm : matchLiteral key.toList arg with
  | none => rw [hm] at h; simp at h
  | some rest =>
    rw [hm] at h
    simp only [Option.some_bind, scanInt] at h
    cases hn : scanNumber rest with
    | none => rw [hn] at h; simp at h
    | some x =>
      rw [hn] at h
      simp only [Option.map_some', Option.some.injEq] at h
      rw [← h]
      exact int32_range _

/-- A number written that fits an `int` is stored as it is. -/
theorem sscanfInt_of_fits (key : String) (arg : List Char) (x : Int)
    (h : (matchLiteral key.toList arg).bind scanNumber = some x)
    (h1 : -2147483648 ≤ x) (h2 : x ≤ 2147483647) : sscanfInt key arg = some x := by
  unfold sscanfInt
  cases hm : matchLiteral key.toList arg with
  | none => rw [hm] at h; simp at h
  | some rest =>
    rw [hm] at h
    simp only [Option.some_bind] at h
    simp only [Option.some_bind, scanInt, h, Option.map_some', strtol_of_fits x h1 h2,
      int32_of_fits x h1 h2]

theorem lastStartToken_range (args : List (List Char)) :
    -2147483648 ≤ lastStartToken args ∧ lastStartToken args ≤ 2147483647 := by
  unfold lastStartToken
  cases hl : (args.filterMap (sscanfInt "start=")).getLast? with
  | none => simp
  | some v =>
    have hv : v ∈ args.filterMap (sscanfInt "start=") := List.mem_of_getLast?_eq_some hl
    obtain ⟨a, _, ha⟩ := List.mem_filterMap.1 hv
    simpa using sscanfInt_range _ _ _ ha

/-- Two argument lists that differ only in their `end=` arguments lead to the
same globals and the same reader at line 299. -/
theorem setup_congr_end {τ : Type} (settings : Settings) (openReader : ReaderOf τ)
    (args args' : List (List Char))
    (h : args'.filter (fun a => !isEndToken a) = args.filter (fun a => !isEndToken a)) :
    setup settings openReader args' = setup settings openReader args := by
  have hw : (parseArguments args' (Globals.initial settings)).withEnd 0
      = (parseArguments args (Globals.initial settings)).withEnd 0 := by
    rw [← withEnd_parseArguments_filter args', ← withEnd_parseArguments_filter args, h]
  have h1 := congrArg Globals.source hw
  have h2 := congrArg Globals.calib hw
  have h3 := congrArg Globals.gammaCalib hw
  have h4 := congrArg Globals.vignette hw
  simp only [Globals.withEnd] at h1 h2 h3 h4
  have hx : ∀ x, (parseArguments args' (Globals.initial settings)).withEnd x
      = (parseArguments args (Globals.initial settings)).withEnd x := by
    intro x
    have := congrArg (fun g => Globals.withEnd g x) hw
    simpa [Globals.withEnd] using this
  have hR : openReader (parseArguments args' (Globals.initial settings)).source
        (parseArguments args' (Globals.initial settings)).calib
        (parseArguments args' (Globals.initial settings)).gammaCalib
        (parseArguments args' (Globals.initial settings)).vignette
      = openReader (parseArguments args (Globals.initial settings)).source
        (parseArguments args (Globals.initial settings)).calib
        (parseArguments args (Globals.initial settings)).gammaCalib
        (parseArguments args (Globals.initial settings)).vignette := by
    rw [h1, h2, h3, h4]
  show (Globals.withEnd (parseArguments args' (Globals.initial settings)) _, _)
    = (Globals.withEnd (parseArguments args (Globals.initial settings)) _, _)
  rw [hR, hx]

/-! ## The two threads -/

theorem isDrain_loopBody (beh : EngineBehaviour) (g : Option GammaTable) (i : Int)
    (m : Machine) : ∀ ev ∈ (loopBody beh g i m).2, ev.isDrain = false := by
  intro ev hev
  have hk := loopBody_keepsSinks beh g i m ev hev
  cases ev <;> simp [Event.isDrain, keepsSinks] at hk ⊢
  unfold loopBody at hev
  by_cases h : ((beh i).initFailed || (beh i).fullResetRequested) = true
  · by_cases hc : m.fullSystem.initialized = true <;>
      simp [submitFrame, resetBlock, FullSystem.addActiveFrame, h, hc] at hev
  · by_cases hc : m.fullSystem.initialized = true <;>
      simp [submitFrame, resetBlock, FullSystem.addActiveFrame, h, hc] at hev

theorem isDrain_frameLoop (beh : EngineBehaviour) (g : Option GammaTable) (end_ : Int) :
    ∀ (fuel : Nat) (i : Int) (m : Machine),
      ∀ ev ∈ (frameLoop beh g end_ fuel i m).2, ev.isDrain = false := by
  intro fuel
  induction fuel with
  | zero => intro i m ev hev; simp [frameLoop] at hev
  | succ n ih =>
    intro i m ev hev
    by_cases hi : i < end_
    · rw [frameLoop_succ _ _ _ _ _ _ hi] at hev
      by_cases hl : lostObserved beh i = true
      · simp only [hl, if_true, List.mem_append, List.mem_singleton] at hev
        rcases hev with hev | hev
        · exact isDrain_loopBody _ _ _ _ ev hev
        · subst hev; rfl
      · simp only [hl, Bool.false_eq_true, if_false, List.mem_append] at hev
        rcases hev with hev | hev
        · exact isDrain_loopBody _ _ _ _ ev hev
        · exact ih _ _ ev hev
    · rw [frameLoop_stop _ _ _ _ _ _ hi] at hev
      simp at hev

theorem isDrain_runthread {τ : Type} [Sub τ] (beh : EngineBehaviour)
    (reader : ImageFolderReader τ) (start end_ : Int) (m : Machine) :
    ∀ ev ∈ (runthread beh reader start end_ m).events, ev.isDrain = false := by
  intro ev hev
  simp only [runthread, List.mem_append, List.mem_singleton] at hev
  rcases hev with hev | hev
  · exact isDrain_frameLoop _ _ _ _ _ _ ev hev
  · subst hev; rfl

/-- Once `runthread` has nothing left to do, every event is one of the main thread. -/
theorem Schedule.main_only {started : Bool} {ms rs : List Event} {tr : List (Thread × Event)}
    (hs : Schedule started ms rs tr) : rs = [] → ∀ x ∈ tr, x.1 = Thread.main := by
  induction hs with
  | done _ => intro _ x hx; simp at hx
  | start _ ih =>
    intro hr x hx
    rcases List.mem_cons.1 hx with h | h
    · rw [h]
    · exact ih hr x h
  | mainStep _ _ _ ih =>
    intro hr x hx
    rcases List.mem_cons.1 hx with h | h
    · rw [h]
    · exact ih hr x h
  | frameStep _ _ => intro hr; simp at hr
  | join _ ih =>
    intro hr x hx
    rcases List.mem_cons.1 hx with h | h
    · rw [h]
    · exact ih hr x h

/-- The join barrier: when the main thread joins `runthread` before its first
draining event, an execution has all of `runthread` and the join before any
draining event, and only the main thread after one. -/
theorem Schedule.drain_after_join {started : Bool} {ms rs : List Event}
    {tr : List (Thread × Event)} (hs : Schedule started ms rs tr) :
    ∀ (ms1 ms2 : List Event), ms = ms1 ++ Event.joinRunthread :: ms2 →
      Event.joinRunthread ∉ ms1 → (∀ ev ∈ ms1, ev.isDrain = false) →
      (∀ ev ∈ rs, ev.isDrain = false) →
      ∀ (pre post : List (Thread × Event)) (t : Thread) (ev : Event),
        ev.isDrain = true → tr = pre ++ (t, ev) :: post →
        (Thread.main, Event.joinRunthread) ∈ pre ∧ frameEvents pre = rs
          ∧ ∀ x ∈ post, x.1 = Thread.main := by
  induction hs with
  | done _ =>
    intro ms1 ms2 h
    simp at h
  | @start ms rs tr _ ih =>
    intro ms1 ms2 hm hj hd hr pre post t ev hev htr
    cases ms1 with
    | nil => simp at hm
    | cons a ms1 =>
      simp only [List.cons_append, List.cons.injEq] at hm
      cases pre with
      | nil =>
        simp only [List.nil_append, List.cons.injEq, Prod.mk.injEq] at htr
        rw [← htr.1.2] at hev
        simp [Event.isDrain] at hev
      | cons p pre =>
        simp only [List.cons_append, List.cons.injEq] at htr
        obtain ⟨h1, h2, h3⟩ := ih ms1 ms2 hm.2 (fun h => hj (List.mem_cons_of_mem _ h))
          (fun e he => hd e (List.mem_cons_of_mem _ he)) hr pre post t ev hev htr.2
        refine ⟨List.mem_cons_of_mem _ h1, ?_, h3⟩
        rw [← htr.1, ← h2]
        simp [frameEvents]
  | @mainStep started e ms rs tr hne1 hne2 _ ih =>
    intro ms1 ms2 hm hj hd hr pre post t ev hev htr
    cases ms1 with
    | nil =>
      simp only [List.nil_append, List.cons.injEq] at hm
      exact absurd hm.1 hne2
    | cons a ms1 =>
      simp only [List.cons_append, List.cons.injEq] at hm
      cases pre with
      | nil =>
        simp only [List.nil_append, List.cons.injEq, Prod.mk.injEq] at htr
        have := hd a (List.mem_cons_self _ _)
        rw [← hm.1, htr.1.2, hev] at this
        simp at this
      | cons p pre =>
        simp only [List.cons_append, List.cons.injEq] at htr
        obtain ⟨h1, h2, h3⟩ := ih ms1 ms2 hm.2 (fun h => hj (List.mem_cons_of_mem _ h))
          (fun e he => hd e (List.mem_cons_of_mem _ he)) hr pre post t ev hev htr.2
        refine ⟨List.mem_cons_of_mem _ h1, ?_, h3⟩
        rw [← htr.1, ← h2]
        simp [frameEvents]
  | @frameStep e ms rs tr _ ih =>
    intro ms1 ms2 hm hj hd hr pre post t ev hev htr
    cases pre with
    | nil =>
      simp only [List.nil_append, List.cons.injEq, Prod.mk.injEq] at htr
      have := hr e (List.mem_cons_self _ _)
      rw [htr.1.2, hev] at this
      simp at this
    | cons p pre =>
      simp only [List.cons_append, List.cons.injEq] at htr
      obtain ⟨h1, h2, h3⟩ := ih ms1 ms2 hm hj hd
        (fun e he => hr e (List.mem_cons_of_mem _ he)) pre post t ev hev htr.2
      refine ⟨List.mem_cons_of_mem _ h1, ?_, h3⟩
      rw [← htr.1, ← h2]
      simp [frameEvents]
  | @join ms tr hs' _ =>
    intro ms1 ms2 _ _ _ _ pre post t ev hev htr
    have hall := Schedule.main_only hs' rfl
    cases pre with
    | nil =>
      simp only [List.nil_append, List.cons.injEq, Prod.mk.injEq] at htr
      rw [← htr.1.2] at hev
      simp [Event.isDrain] at hev
    | cons p pre =>
      simp only [List.cons_append, List.cons.injEq] at htr
      refine ⟨?_, ?_, ?_⟩
      · rw [← htr.1]
        exact List.mem_cons_self _ _
      · have hpre : ∀ x ∈ pre, x.1 = Thread.main := fun x hx =>
          hall x (by rw [htr.2]; exact List.mem_append_left _ hx)
        rw [← htr.1]
        simp only [frameEvents, List.map_eq_nil_iff, List.filter_eq_nil_iff, List.mem_cons]
        intro x hx
        rcases hx with hx | hx
        · simp [hx]
        · simp [hpre x hx]
      · intro x hx
        exact hall x (by rw [htr.2]; exact List.mem_append_right _ (List.mem_cons_of_mem _ hx))

/-! ## The claims -/

/-- C1: for every `start < end` and every engine behaviour for which the test of
`isLost` at line 354 never reads `true` (`initFailed` and
`setting_fullResetRequested` being raised after any submissions whatever), the
indices passed to `addActiveFrame` by the frame loop are exactly
`start, start + 1, .., end - 1`: strictly increasing, each index of the range
once, an index whose submission raised `initFailed` at most once, and `end - start`
submissions in all, whichever engine instance received them. -/
theorem frame_loop_index_sequence {τ : Type} [Sub τ] (beh : EngineBehaviour)
    (reader : ImageFolderReader τ) (start end_ : Int) (m : Machine)
    (hlt : start < end_)
    (hlost : ∀ i, start ≤ i → i < end_ → lostObserved beh i = false) :
    submitted (runthread beh reader start end_ m).events
        = (List.range (end_ - start).toNat).map (fun (k : Nat) => start + (k : Int))
      ∧ (submitted (runthread beh reader start end_ m).events).Pairwise (· < ·)
      ∧ (∀ i, start ≤ i → i < end_ →
          (submitted (runthread beh reader start end_ m).events).count i = 1)
      ∧ (∀ i, (beh i).initFailed = true →
          (submitted (runthread beh reader start end_ m).events).count i ≤ 1)
      ∧ ((submitted (runthread beh reader start end_ m).events).length : Int) = end_ - start := by
  have hs : submitted (runthread beh reader start end_ m).events
      = indexRange start (end_ - start).toNat := by
    rw [runthread_submitted, frameLoop_submitted_of_not_lost _ _ _ _ _ _ hlost, Nat.min_self]
  rw [hs]
  refine ⟨indexRange_eq_map _ _, indexRange_pairwise _ _, ?_, ?_, ?_⟩
  · intro i h1 h2
    exact indexRange_count _ _ _ h1 (by omega)
  · intro i _
    exact indexRange_count_le _ _ _
  · rw [indexRange_length]
    omega

/-- Witness of C1: four frames, an initialisation failure on frame 1 and a reset
request on frame 2. -/
theorem frame_loop_index_sequence_witness :
    submitted (runthread behaviourResets readerFour 0 4 machineTwoSinks).events
        = (List.range (4 - 0 : Int).toNat).map (fun (k : Nat) => (0 : Int) + (k : Int))
      ∧ (submitted (runthread behaviourResets readerFour 0 4 machineTwoSinks).events).Pairwise
          (· < ·)
      ∧ (∀ i, (0 : Int) ≤ i → i < 4 →
          (submitted (runthread behaviourResets readerFour 0 4 machineTwoSinks).events).count i = 1)
      ∧ (∀ i, (behaviourResets i).initFailed = true →
          (submitted (runthread behaviourResets readerFour 0 4 machineTwoSinks).events).count i ≤ 1)
      ∧ ((submitted (runthread behaviourResets readerFour 0 4 machineTwoSinks).events).length : Int)
          = 4 - 0 :=
  frame_loop_index_sequence behaviourResets readerFour 0 4 machineTwoSinks (by decide)
    (fun i _ _ => by
      unfold lostObserved resetTriggered behaviourResets FullSystem.new
      simp)

/-- Counterexample to C2 as stated: in the range `[0, 2)` the engine that received
frame 0 reports `isLost` on return, together with `initFailed`; the reset block
replaces it before line 354 reads `isLost`, and index 1 is submitted all the same. -/
theorem track_loss_with_reset_goes_on :
    (behaviourLostAndFailed 0).isLost = true
      ∧ (behaviourLostAndFailed 0).initFailed = true
      ∧ submitted (runthread behaviourLostAndFailed readerFour 0 2 machineTwoSinks).events
          = [0, 1] := by
  decide

/-- C2, amended: for every run and every index `i` submitted in it, if the engine
that received frame `i` reports `isLost` on return from that submission and the
submission triggers no reset (`initFailed` and `setting_fullResetRequested` are
both false at line 338), then no index greater than `i` is ever submitted, and the
loop ends in that iteration: the run consists of what came before, the submission
of `i`, the `break` of line 356 and `printResult`. -/
theorem track_loss_stops_loop {τ : Type} [Sub τ] (beh : EngineBehaviour)
    (reader : ImageFolderReader τ) (start end_ : Int) (m : Machine) (i : Int)
    (hsub : i ∈ submitted (runthread beh reader start end_ m).events)
    (hlost : (beh i).isLost = true)
    (hnoreset : (beh i).initFailed = false ∧ (beh i).fullResetRequested = false) :
    (∀ j ∈ submitted (runthread beh reader start end_ m).events, j ≤ i)
      ∧ ∃ pre e, (runthread beh reader start end_ m).events =
          pre ++ [Event.addActiveFrame e i, Event.deleteImage i, Event.lost e,
            Event.printResult e "result.txt"] := by
  have hobs : lostObserved beh i = true :=
    (lostObserved_eq_true beh i).2 ⟨hlost, by simp [resetTriggered, hnoreset.1, hnoreset.2]⟩
  rw [runthread_submitted] at hsub ⊢
  obtain ⟨⟨pre, e, hpre, he⟩, hmax⟩ := frameLoop_lost_stops _ _ _ _ _ _ _ hsub hobs
  refine ⟨hmax, pre, e, ?_⟩
  simp only [runthread, hpre, he, List.append_assoc, List.cons_append, List.nil_append]

/-- Witness of C2: ten frames, a loss reported on frame 5 and no reset. -/
theorem track_loss_stops_loop_witness :
    (∀ j ∈ submitted (runthread behaviourLostAtFive readerTen 0 10 machineTwoSinks).events,
        j ≤ 5)
      ∧ ∃ pre e, (runthread behaviourLostAtFive readerTen 0 10 machineTwoSinks).events =
          pre ++ [Event.addActiveFrame e 5, Event.deleteImage 5, Event.lost e,
            Event.printResult e "result.txt"] :=
  track_loss_stops_loop behaviourLostAtFive readerTen 0 10 machineTwoSinks 5
    (by decide) (by decide) (by decide)

/-- C3: for every reset, whatever the sink list (the empty one included), the
`outputWrapper` list of the engine made by the reset is the list of the engine it
retires, element for element and in the same order, and it is the list the reset
attaches; the reset makes no wrapper and deletes none.  Consequently, in every run
of the frame loop, the engine active at the end has the sink list the first engine
had when the loop started, every list captured or attached on the way is that
list, and no wrapper is made, registered or deleted by the loop. -/
theorem reset_preserves_sink_collection {τ : Type} [Sub τ] (gamma : Option GammaTable)
    (retired : Machine) (beh : EngineBehaviour) (reader : ImageFolderReader τ)
    (start end_ : Int) (m : Machine) :
    ((resetBlock gamma retired).1.fullSystem.outputWrapper = retired.fullSystem.outputWrapper
      ∧ (∀ e ws, Event.attachWraps e ws ∈ (resetBlock gamma retired).2 →
          ws = retired.fullSystem.outputWrapper)
      ∧ ∀ ow, Event.newWrapper ow ∉ (resetBlock gamma retired).2
          ∧ Event.deleteWrapper ow ∉ (resetBlock gamma retired).2)
    ∧ ((runthread beh reader start end_ m).machine.fullSystem.outputWrapper
          = m.fullSystem.outputWrapper
      ∧ (∀ e ws, Event.captureWraps e ws ∈ (runthread beh reader start end_ m).events →
          ws = m.fullSystem.outputWrapper)
      ∧ (∀ e ws, Event.attachWraps e ws ∈ (runthread beh reader start end_ m).events →
          ws = m.fullSystem.outputWrapper)
      ∧ ∀ ow, Event.newWrapper ow ∉ (runthread beh reader start end_ m).events
          ∧ (∀ e, Event.pushWrapper e ow ∉ (runthread beh reader start end_ m).events)
          ∧ Event.deleteWrapper ow ∉ (runthread beh reader start end_ m).events) := by
  have hr := resetBlock_keepsSinks gamma retired
  have hl := frameLoop_keepsSinks beh reader.getPhotometricGamma end_ (end_ - start).toNat start m
  have hrun : ∀ ev ∈ (runthread beh reader start end_ m).events,
      keepsSinks m.fullSystem.outputWrapper ev := by
    intro ev hev
    simp only [runthread, List.mem_append, List.mem_singleton] at hev
    rcases hev with hev | hev
    · exact hl.2 ev hev
    · subst hev
      simp [keepsSinks]
  refine ⟨⟨rfl, fun e ws h => hr _ h, fun ow => ⟨fun h => hr _ h, fun h => hr _ h⟩⟩,
    hl.1, fun e ws h => hrun _ h, fun e ws h => hrun _ h,
    fun ow => ⟨fun h => hrun _ h, fun e h => hrun _ h, fun h => hrun _ h⟩⟩

/-- C4: in every run of the frame loop the resets are exactly one per submission
after which `initFailed || setting_fullResetRequested` holds, each placed after
that submission and before the next; in each of them the wrappers notified between
the capture of the sink list from the retiring engine and the attachment of the
list to the new engine are the attached sinks, once each and in the order of the
collection, and the list attached is the list captured; no `reset()` is called
outside a reset.  In particular, when the test of line 338 holds after exactly one
submission, one whose `initFailed` is raised, the run has exactly one reset and the
calls of `reset()` in the whole run are one per sink, in the order of the
collection. -/
theorem reset_notification_count_and_placement {τ : Type} [Sub τ] (beh : EngineBehaviour)
    (reader : ImageFolderReader τ) (start end_ : Int) (m : Machine) :
    resetLog none none (runthread beh reader start end_ m).events
        = ((submitted (runthread beh reader start end_ m).events).filter
            (resetTriggered beh)).map (ResetRecord.regular m.fullSystem.outputWrapper)
      ∧ strayResets false (runthread beh reader start end_ m).events = []
      ∧ ∀ k, k ∈ submitted (runthread beh reader start end_ m).events →
          (beh k).initFailed = true →
          (∀ j ∈ submitted (runthread beh reader start end_ m).events,
            j ≠ k → resetTriggered beh j = false) →
          (resetLog none none (runthread beh reader start end_ m).events).length = 1
            ∧ notified (runthread beh reader start end_ m).events
                = m.fullSystem.outputWrapper := by
  have hlog : resetLog none none (runthread beh reader start end_ m).events
      = ((submitted (runthread beh reader start end_ m).events).filter
          (resetTriggered beh)).map (ResetRecord.regular m.fullSystem.outputWrapper) := by
    obtain ⟨last', h⟩ := frameLoop_resetLog beh reader.getPhotometricGamma end_
      (end_ - start).toNat start m none
      [Event.printResult
        (frameLoop beh reader.getPhotometricGamma end_ (end_ - start).toNat start m).1.engine
        "result.txt"]
    rw [runthread_submitted]
    simpa [runthread, resetLog] using h
  refine ⟨hlog, ?_, ?_⟩
  · simp [runthread, frameLoop_strayResets, strayResets]
  · intro k hk hf hothers
    have hfilter : (submitted (runthread beh reader start end_ m).events).filter
        (resetTriggered beh) = [k] := by
      apply filter_eq_singleton _ _ _ _ hk (by simp [resetTriggered, hf]) hothers
      rw [runthread_submitted]
      obtain ⟨n, hn⟩ := frameLoop_submitted_range beh reader.getPhotometricGamma end_
        (end_ - start).toNat start m
      rw [hn]
      exact (indexRange_pairwise n start).imp (fun h => ne_of_lt h)
    refine ⟨by rw [hlog, hfilter]; rfl, ?_⟩
    have hn : notified (runthread beh reader start end_ m).events
        = (((submitted (runthread beh reader start end_ m).events).filter
            (resetTriggered beh)).map (fun _ => m.fullSystem.outputWrapper)).flatten := by
      rw [runthread_submitted]
      simp [runthread, notified_append, frameLoop_notified, notified]
    rw [hn, hfilter]
    simp

/-- Witness of C4: ten frames, `initFailed` raised on frame 3 only; there is one
reset, and the viewer and the sample wrapper are notified once each, in this
order. -/
theorem reset_notification_count_and_placement_witness :
    (resetLog none none (runthread behaviourFailsAtThree readerTen 0 10 machineTwoSinks).events
        = [ResetRecord.regular [viewerWrapper, sampleWrapper] 3])
      ∧ (resetLog none none
          (runthread behaviourFailsAtThree readerTen 0 10 machineTwoSinks).events).length = 1
      ∧ notified (runthread behaviourFailsAtThree readerTen 0 10 machineTwoSinks).events
          = [viewerWrapper, sampleWrapper] :=
  ⟨by decide,
   (reset_notification_count_and_placement behaviourFailsAtThree readerTen 0 10
      machineTwoSinks).2.2 3 (by decide) (by decide)
      (fun j _ hne => by simp [resetTriggered, behaviourFailsAtThree, hne])⟩

/-- Counterexample to C5 as stated: the events of a reset with the viewer and the
sample wrapper attached.  The retiring engine 0 is deleted second, right after
the capture of the sink list, and both notifications come after its deletion. -/
theorem reset_notifies_after_engine_deleted :
    (resetBlock (some 7) machineTwoSinks).2 =
      [Event.captureWraps 0 [viewerWrapper, sampleWrapper],
       Event.deleteFullSystem 0,
       Event.wrapperReset viewerWrapper,
       Event.wrapperReset sampleWrapper,
       Event.newFullSystem 1,
       Event.setGammaFunction 1 (some 7),
       Event.setLinearizeOperation 1,
       Event.attachWraps 1 [viewerWrapper, sampleWrapper],
       Event.clearFullResetRequest] := by
  decide

/-- C5, amended: in every reset the old engine instance is deleted right after the
sink collection has been captured and before any sink is notified: in the events
of a reset (capture sinks, delete old engine, notify each sink, construct new
engine, re-attach sinks, clear reset request) every notification `ow->reset()`
comes after the capture and after the deletion of the retiring engine, and before
the construction of the new engine and the attachment of the list. -/
theorem reset_deletes_engine_before_notifying (gamma : Option GammaTable) (m : Machine)
    (pre post : List Event) (ow : Output3DWrapper)
    (h : (resetBlock gamma m).2 = pre ++ Event.wrapperReset ow :: post) :
    Event.captureWraps m.engine m.fullSystem.outputWrapper ∈ pre
      ∧ Event.deleteFullSystem m.engine ∈ pre
      ∧ (∀ e, Event.deleteFullSystem e ∉ post)
      ∧ (∀ e, Event.newFullSystem e ∉ pre)
      ∧ Event.newFullSystem (m.engine + 1) ∈ post
      ∧ Event.attachWraps (m.engine + 1) m.fullSystem.outputWrapper ∈ post := by
  cases pre with
  | nil => simp [resetBlock] at h
  | cons p1 pre =>
    cases pre with
    | nil => simp [resetBlock] at h
    | cons p2 pre =>
      simp only [resetBlock, List.cons_append, List.nil_append, List.cons.injEq,
        List.append_assoc] at h
      obtain ⟨h1, h2, h3⟩ := h
      obtain ⟨ws1, ws2, _, hpre, hpost⟩ := split_at_wrapperReset _ (by simp) _ _ _ _ h3.symm
      subst h1 h2 hpre hpost
      simp

/-- Witness of C5: the notification of the viewer in a reset with the viewer and
the sample wrapper attached. -/
theorem reset_deletes_engine_before_notifying_witness :
    Event.captureWraps 0 [viewerWrapper, sampleWrapper]
        ∈ [Event.captureWraps 0 [viewerWrapper, sampleWrapper], Event.deleteFullSystem 0]
      ∧ Event.deleteFullSystem 0
        ∈ [Event.captureWraps 0 [viewerWrapper, sampleWrapper], Event.deleteFullSystem 0]
      ∧ (∀ e, Event.deleteFullSystem e ∉
          [Event.wrapperReset sampleWrapper, Event.newFullSystem 1,
           Event.setGammaFunction 1 (some 7), Event.setLinearizeOperation 1,
           Event.attachWraps 1 [viewerWrapper, sampleWrapper], Event.clearFullResetRequest])
      ∧ (∀ e, Event.newFullSystem e ∉
          [Event.captureWraps 0 [viewerWrapper, sampleWrapper], Event.deleteFullSystem 0])
      ∧ Event.newFullSystem 1 ∈
          [Event.wrapperReset sampleWrapper, Event.newFullSystem 1,
           Event.setGammaFunction 1 (some 7), Event.setLinearizeOperation 1,
           Event.attachWraps 1 [viewerWrapper, sampleWrapper], Event.clearFullResetRequest]
      ∧ Event.attachWraps 1 [viewerWrapper, sampleWrapper] ∈
          [Event.wrapperReset sampleWrapper, Event.newFullSystem 1,
           Event.setGammaFunction 1 (some 7), Event.setLinearizeOperation 1,
           Event.attachWraps 1 [viewerWrapper, sampleWrapper], Event.clearFullResetRequest] :=
  reset_deletes_engine_before_notifying (some 7) machineTwoSinks
    [Event.captureWraps 0 [viewerWrapper, sampleWrapper], Event.deleteFullSystem 0]
    [Event.wrapperReset sampleWrapper, Event.newFullSystem 1,
     Event.setGammaFunction 1 (some 7), Event.setLinearizeOperation 1,
     Event.attachWraps 1 [viewerWrapper, sampleWrapper], Event.clearFullResetRequest]
    viewerWrapper (by decide)

/-- C6: whenever, at line 300, photometric calibration is required
(`setting_photometricCalibration > 0`) and the frame source has no gamma table
(`getPhotometricGamma() == 0`), `main` ends with exit code 1 before any engine is
constructed, before `runthread` is started and before any frame is submitted; and
whenever this is not so, the check does not end the process: `main` goes on to
construct the first engine and to start `runthread`. -/
theorem fatal_calibration_check {τ : Type} [Sub τ] (beh : EngineBehaviour)
    (settings : Settings) (openReader : ReaderOf τ) (args : List (List Char)) :
    ((0 < (setup settings openReader args).1.setting_photometricCalibration
        ∧ (setup settings openReader args).2.getPhotometricGamma = none) →
      (main beh settings openReader args).exitCode = 1
        ∧ (∀ e, Event.newFullSystem e ∉ (main beh settings openReader args).mainThread
            ∧ Event.newFullSystem e ∉ (main beh settings openReader args).frameThread)
        ∧ Event.startRunthread ∉ (main beh settings openReader args).mainThread
        ∧ ∀ e i, Event.addActiveFrame e i ∉ (main beh settings openReader args).mainThread
            ∧ Event.addActiveFrame e i ∉ (main beh settings openReader args).frameThread)
    ∧ (¬ (0 < (setup settings openReader args).1.setting_photometricCalibration
          ∧ (setup settings openReader args).2.getPhotometricGamma = none) →
        (main beh settings openReader args).exitCode ≠ 1
          ∧ Event.newFullSystem 0 ∈ (main beh settings openReader args).mainThread
          ∧ Event.startRunthread ∈ (main beh settings openReader args).mainThread) := by
  constructor
  · intro h
    have hc : calibrationMissing (setup settings openReader args).1
        (setup settings openReader args).2 = true := by
      simp [calibrationMissing, h.1, h.2]
    simp [main, hc]
  · intro h
    have hc : calibrationMissing (setup settings openReader args).1
        (setup settings openReader args).2 = false := by
      by_cases h1 : 0 < (setup settings openReader args).1.setting_photometricCalibration
      · have h2 : ¬ (setup settings openReader args).2.getPhotometricGamma = none :=
          fun h2 => h ⟨h1, h2⟩
        cases hg : (setup settings openReader args).2.getPhotometricGamma with
        | none => exact absurd hg h2
        | some t => simp [calibrationMissing, hg]
      · simp [calibrationMissing, h1]
    simp [main, hc]

/-- Witness of C6: under settings that require calibration, `mode=0` with a
source that has no gamma table ends `main` with exit code 1, and `mode=1` with
the same source lets it go on. -/
theorem fatal_calibration_check_witness :
    ((main behaviourResets settingsCalibrated openReaderNoGamma ["mode=0".toList]).exitCode = 1
      ∧ (∀ e, Event.newFullSystem e ∉
            (main behaviourResets settingsCalibrated openReaderNoGamma ["mode=0".toList]).mainThread
          ∧ Event.newFullSystem e ∉
            (main behaviourResets settingsCalibrated openReaderNoGamma
              ["mode=0".toList]).frameThread)
      ∧ Event.startRunthread ∉
          (main behaviourResets settingsCalibrated openReaderNoGamma ["mode=0".toList]).mainThread
      ∧ ∀ e i, Event.addActiveFrame e i ∉
            (main behaviourResets settingsCalibrated openReaderNoGamma ["mode=0".toList]).mainThread
          ∧ Event.addActiveFrame e i ∉
            (main behaviourResets settingsCalibrated openReaderNoGamma
              ["mode=0".toList]).frameThread)
    ∧ ((main behaviourResets settingsCalibrated openReaderNoGamma ["mode=1".toList]).exitCode ≠ 1
      ∧ Event.newFullSystem 0 ∈
          (main behaviourResets settingsCalibrated openReaderNoGamma ["mode=1".toList]).mainThread
      ∧ Event.startRunthread ∈
          (main behaviourResets settingsCalibrated openReaderNoGamma
            ["mode=1".toList]).mainThread) :=
  ⟨(fatal_calibration_check behaviourResets settingsCalibrated openReaderNoGamma
      ["mode=0".toList]).1 (by decide),
   (fatal_calibration_check behaviourResets settingsCalibrated openReaderNoGamma
      ["mode=1".toList]).2 (by decide)⟩

/-- C7: in every run of `runthread`, whether the loop runs out of indices or
breaks on `isLost`, `printResult("result.txt")` is called exactly once, as the
last event of the thread and so after the last submission, on the engine active
when the loop is left; and whenever the calibration check lets `main` reach the
loop, `main` returns exit code 0 and calls `printResult` nowhere else.  For the
range `[0, 10)` with the test of `isLost` reading `true` after frame 5 and not
before, there are exactly 6 submissions, of the indices 0 to 5, and one call of
`printResult`. -/
theorem result_finalization_always_runs {τ : Type} [Sub τ] (beh : EngineBehaviour)
    (reader : ImageFolderReader τ) (start end_ : Int) (m : Machine)
    (settings : Settings) (openReader : ReaderOf τ) (args : List (List Char)) :
    ((runthread beh reader start end_ m).events.filter Event.isPrintResult
        = [Event.printResult (runthread beh reader start end_ m).machine.engine "result.txt"]
      ∧ (runthread beh reader start end_ m).events.getLast?
        = some (Event.printResult (runthread beh reader start end_ m).machine.engine
            "result.txt"))
    ∧ (¬ (0 < (setup settings openReader args).1.setting_photometricCalibration
          ∧ (setup settings openReader args).2.getPhotometricGamma = none) →
        (main beh settings openReader args).exitCode = 0
          ∧ (main beh settings openReader args).frameThread
            = (runthread beh (setup settings openReader args).2
                (setup settings openReader args).1.start
                (setup settings openReader args).1.end_
                (firstMachine (setup settings openReader args).1)).events
          ∧ (main beh settings openReader args).mainThread.filter Event.isPrintResult = [])
    ∧ ((∀ j, 0 ≤ j → j < 5 → lostObserved beh j = false) → lostObserved beh 5 = true →
        submitted (runthread beh reader 0 10 m).events = [0, 1, 2, 3, 4, 5]
          ∧ (submitted (runthread beh reader 0 10 m).events).length = 6
          ∧ ((runthread beh reader 0 10 m).events.filter Event.isPrintResult).length = 1) := by
  have hA : ∀ (s e : Int),
      (runthread beh reader s e m).events.filter Event.isPrintResult
        = [Event.printResult (runthread beh reader s e m).machine.engine "result.txt"] := by
    intro s e
    simp [runthread, List.filter_append, filter_isPrintResult_frameLoop, Event.isPrintResult]
  refine ⟨⟨hA start end_, by simp [runthread]⟩, ?_, ?_⟩
  · intro h
    have hc : calibrationMissing (setup settings openReader args).1
        (setup settings openReader args).2 = false := by
      by_cases h1 : 0 < (setup settings openReader args).1.setting_photometricCalibration
      · have h2 : ¬ (setup settings openReader args).2.getPhotometricGamma = none :=
          fun h2 => h ⟨h1, h2⟩
        cases hg : (setup settings openReader args).2.getPhotometricGamma with
        | none => exact absurd hg h2
        | some t => simp [calibrationMissing, hg]
      · simp [calibrationMissing, h1]
    refine ⟨by simp [main, hc], by simp [main, hc], ?_⟩
    rw [List.filter_eq_nil_iff]
    intro ev hev hp
    cases ev with
    | printResult e f =>
      simp only [main, hc, teardown, List.mem_append] at hev
      have hd := printResult_not_mem_drainWrappers e f
      by_cases h1 : (setup settings openReader args).1.disableAllDisplay = true <;>
        by_cases h2 : (setup settings openReader args).1.useSampleOutput = true <;>
        simp [h1, h2, viewerOf, hd] at hev
    | _ => simp [Event.isPrintResult] at hp
  · intro hbefore hlost
    have hs : submitted (runthread beh reader 0 10 m).events = [0, 1, 2, 3, 4, 5] := by
      rw [runthread_submitted,
        frameLoop_submitted_until_lost beh _ 10 _ 0 m 5 (by decide) (by decide) (by decide)
          hbefore hlost]
      decide
    refine ⟨hs, by rw [hs]; rfl, by rw [hA 0 10]; rfl⟩

/-- Witness of C7: ten frames, the display on, a loss reported on frame 5. -/
theorem result_finalization_always_runs_witness :
    ((main behaviourLostAtFive settingsCalibrated openReaderTen []).exitCode = 0
      ∧ (main behaviourLostAtFive settingsCalibrated openReaderTen []).frameThread
        = (runthread behaviourLostAtFive (setup settingsCalibrated openReaderTen []).2
            (setup settingsCalibrated openReaderTen []).1.start
            (setup settingsCalibrated openReaderTen []).1.end_
            (firstMachine (setup settingsCalibrated openReaderTen []).1)).events
      ∧ (main behaviourLostAtFive settingsCalibrated openReaderTen []).mainThread.filter
          Event.isPrintResult = [])
    ∧ (submitted (runthread behaviourLostAtFive readerTen 0 10 machineTwoSinks).events
        = [0, 1, 2, 3, 4, 5]
      ∧ (submitted (runthread behaviourLostAtFive readerTen 0 10 machineTwoSinks).events).length
        = 6
      ∧ ((runthread behaviourLostAtFive readerTen 0 10 machineTwoSinks).events.filter
          Event.isPrintResult).length = 1) :=
  ⟨(result_finalization_always_runs behaviourLostAtFive readerTen 0 10 machineTwoSinks
      settingsCalibrated openReaderTen []).2.1 (by decide),
   (result_finalization_always_runs behaviourLostAtFive readerTen 0 10 machineTwoSinks
      settingsCalibrated openReaderTen []).2.2
      (fun j _ h5 => by
        have hne : j ≠ 5 := by omega
        simp [lostObserved, resetTriggered, behaviourLostAtFive, hne])
      (by decide)⟩

/-- C10: in every run (with `end - start` within the range of `int`), the number
of frames reported after the loop is `end - start` and the number of seconds is
`getTimestamp(end - 1) - getTimestamp(start)`, whatever was submitted; when the
loop breaks on `isLost` after frame `k` with `k < end - 1`, the `k - start + 1`
frames submitted are strictly fewer than the `end - start` reported. -/
theorem reported_frame_count_ignores_early_termination {τ : Type} [Sub τ]
    (beh : EngineBehaviour) (reader : ImageFolderReader τ) (start end_ : Int) (m : Machine)
    (hfit : -2147483648 ≤ end_ - start ∧ end_ - start ≤ 2147483647) :
    (runthread beh reader start end_ m).summary.numFramesProcessed = end_ - start
      ∧ (runthread beh reader start end_ m).summary.numSecondsProcessed
        = reader.getTimestamp (end_ - 1) - reader.getTimestamp start
      ∧ ∀ k, k ∈ submitted (runthread beh reader start end_ m).events →
          lostObserved beh k = true → k < end_ - 1 →
          ((submitted (runthread beh reader start end_ m).events).length : Int) = k - start + 1
            ∧ ((submitted (runthread beh reader start end_ m).events).length : Int)
              < (runthread beh reader start end_ m).summary.numFramesProcessed := by
  have hn : (runthread beh reader start end_ m).summary.numFramesProcessed = end_ - start := by
    simp [runthread, int32_of_fits _ hfit.1 hfit.2]
  refine ⟨hn, rfl, ?_⟩
  intro k hk hlost hlt
  rw [hn]
  rw [runthread_submitted] at hk ⊢
  have hb := (mem_submitted_frameLoop _ _ _ _ _ _ _ hk).1
  rw [frameLoop_submitted_of_lost _ _ _ _ _ _ _ hk hlost, indexRange_length]
  omega

/-- Witness of C10: ten frames, a loss reported on frame 5; 10 frames are
reported, 6 were submitted. -/
theorem reported_frame_count_ignores_early_termination_witness :
    (runthread behaviourLostAtFive readerTen 0 10 machineTwoSinks).summary.numFramesProcessed
        = 10 - 0
      ∧ (runthread behaviourLostAtFive readerTen 0 10 machineTwoSinks).summary.numSecondsProcessed
        = readerTen.getTimestamp (10 - 1) - readerTen.getTimestamp 0
      ∧ ((submitted (runthread behaviourLostAtFive readerTen 0 10 machineTwoSinks).events).length
          : Int) = 5 - 0 + 1
      ∧ ((submitted (runthread behaviourLostAtFive readerTen 0 10 machineTwoSinks).events).length
          : Int)
        < (runthread behaviourLostAtFive readerTen 0 10 machineTwoSinks).summary.numFramesProcessed :=
  have h := reported_frame_count_ignores_early_termination behaviourLostAtFive readerTen 0 10
    machineTwoSinks (by decide)
  ⟨h.1, h.2.1, h.2.2 5 (by decide) (by decide) (by decide)⟩

/-- C9: for every argument list, the upper bound of the frame loop is
`reader->getNumImages()`, whatever `end=N` arguments are given, and the lower
bound is the `int` read from the last `start=N` argument (0 when there is none),
which is `N` itself whenever `N` fits an `int`: the frame thread of `main` is
`runthread` run on these two bounds.  Two argument lists that differ only in
their `end=` arguments give the same exit code and the same sequence of submitted
indices. -/
theorem end_argument_never_bounds_range {τ : Type} [Sub τ] (beh : EngineBehaviour)
    (settings : Settings) (openReader : ReaderOf τ) (args : List (List Char)) :
    (setup settings openReader args).1.end_ = (setup settings openReader args).2.getNumImages
      ∧ (setup settings openReader args).1.start = lastStartToken args
      ∧ (-2147483648 ≤ (setup settings openReader args).1.start
          ∧ (setup settings openReader args).1.start ≤ 2147483647)
      ∧ (∀ (arg : List Char) (n : Int),
          (matchLiteral "start=".toList arg).bind scanNumber = some n →
          -2147483648 ≤ n → n ≤ 2147483647 →
          lastStartToken (args ++ [arg]) = n)
      ∧ (¬ (0 < (setup settings openReader args).1.setting_photometricCalibration
            ∧ (setup settings openReader args).2.getPhotometricGamma = none) →
          (main beh settings openReader args).frameThread
            = (runthread beh (setup settings openReader args).2 (lastStartToken args)
                (setup settings openReader args).2.getNumImages
                (firstMachine (setup settings openReader args).1)).events)
      ∧ ∀ args' : List (List Char),
          args'.filter (fun a => !isEndToken a) = args.filter (fun a => !isEndToken a) →
          (main beh settings openReader args').exitCode
              = (main beh settings openReader args).exitCode
            ∧ submitted (main beh settings openReader args').frameThread
              = submitted (main beh settings openReader args).frameThread := by
  have hstart : (setup settings openReader args).1.start = lastStartToken args := by
    simp only [setup]
    exact parseArguments_start args (Globals.initial settings)
  refine ⟨rfl, hstart, ?_, ?_, ?_, ?_⟩
  · rw [hstart]
    exact lastStartToken_range args
  · intro arg n hn h1 h2
    have hs := sscanfInt_of_fits "start=" arg n hn h1 h2
    simp [lastStartToken, List.filterMap_append, hs]
  · intro h
    have hc : calibrationMissing (setup settings openReader args).1
        (setup settings openReader args).2 = false := by
      by_cases h1 : 0 < (setup settings openReader args).1.setting_photometricCalibration
      · have h2 : ¬ (setup settings openReader args).2.getPhotometricGamma = none :=
          fun h2 => h ⟨h1, h2⟩
        cases hg : (setup settings openReader args).2.getPhotometricGamma with
        | none => exact absurd hg h2
        | some t => simp [calibrationMissing, hg]
      · simp [calibrationMissing, h1]
    have he : (setup settings openReader args).1.end_
        = (setup settings openReader args).2.getNumImages := rfl
    simp only [main, hc, Bool.false_eq_true, if_false, hstart, he]
  · intro args' h
    have hs := setup_congr_end settings openReader args args' h
    simp only [main, hs, and_self]

/-- Witness of C9: `start=2 end=3` against `end=7 start=2`, on a source of 5
frames: both runs submit the indices 2, 3, 4.  So does `start=4294967298`, whose
number does not fit an `int` and is stored as 2. -/
theorem end_argument_never_bounds_range_witness :
    (lastStartToken (["files=abcde".toList, "start=2".toList, "end=3".toList]
        ++ ["start=2".toList]) = 2)
    ∧ ((main behaviourResets settingsCalibrated openReaderByPath
        ["files=abcde".toList, "start=2".toList, "end=3".toList]).frameThread
      = (runthread behaviourResets
          (setup settingsCalibrated openReaderByPath
            ["files=abcde".toList, "start=2".toList, "end=3".toList]).2
          (lastStartToken ["files=abcde".toList, "start=2".toList, "end=3".toList])
          (setup settingsCalibrated openReaderByPath
            ["files=abcde".toList, "start=2".toList, "end=3".toList]).2.getNumImages
          (firstMachine (setup settingsCalibrated openReaderByPath
            ["files=abcde".toList, "start=2".toList, "end=3".toList]).1)).events)
    ∧ ((main behaviourResets settingsCalibrated openReaderByPath
          ["end=7".toList, "files=abcde".toList, "start=2".toList]).exitCode
        = (main behaviourResets settingsCalibrated openReaderByPath
          ["files=abcde".toList, "start=2".toList, "end=3".toList]).exitCode
      ∧ submitted (main behaviourResets settingsCalibrated openReaderByPath
          ["end=7".toList, "files=abcde".toList, "start=2".toList]).frameThread
        = submitted (main behaviourResets settingsCalibrated openReaderByPath
          ["files=abcde".toList, "start=2".toList, "end=3".toList]).frameThread)
    ∧ submitted (main behaviourResets settingsCalibrated openReaderByPath
          ["files=abcde".toList, "start=2".toList, "end=3".toList]).frameThread = [2, 3, 4]
    ∧ (setup settingsCalibrated openReaderByPath
          ["files=abcde".toList, "start=4294967298".toList]).1.start = 2
    ∧ submitted (main behaviourResets settingsCalibrated openReaderByPath
          ["files=abcde".toList, "start=4294967298".toList]).frameThread = [2, 3, 4] :=
  ⟨(end_argument_never_bounds_range behaviourResets settingsCalibrated openReaderByPath
      ["files=abcde".toList, "start=2".toList, "end=3".toList]).2.2.2.1
      "start=2".toList 2 (by decide) (by decide) (by decide),
   (end_argument_never_bounds_range behaviourResets settingsCalibrated openReaderByPath
      ["files=abcde".toList, "start=2".toList, "end=3".toList]).2.2.2.2.1 (by decide),
   (end_argument_never_bounds_range behaviourResets settingsCalibrated openReaderByPath
      ["files=abcde".toList, "start=2".toList, "end=3".toList]).2.2.2.2.2
      ["end=7".toList, "files=abcde".toList, "start=2".toList] (by decide),
   by decide, by decide, by decide⟩

/-- C8: in every execution of `main`, whether or not a viewer is registered and
wherever the return of `viewer->run()` falls among the events of the frame loop,
no `ow->join()` and no `delete ow` happens before the frame thread has run all of
its events and `runthread.join()` has returned, and nothing but the main thread
runs afterwards; from the join on, the main thread joins and then deletes every
sink of the active engine's list, which is the list of the registered wrappers,
one sink after the other in the order of registration, and only then deletes the
engine and the reader. -/
theorem join_barrier_is_unconditional {τ : Type} [Sub τ] (beh : EngineBehaviour)
    (settings : Settings) (openReader : ReaderOf τ) (args : List (List Char))
    (tr : List (Thread × Event))
    (hs : Schedule false (main beh settings openReader args).mainThread
      (main beh settings openReader args).frameThread tr) :
    (∀ (pre post : List (Thread × Event)) (t : Thread) (ow : Output3DWrapper),
        (tr = pre ++ (t, Event.wrapperJoin ow) :: post
          ∨ tr = pre ++ (t, Event.deleteWrapper ow) :: post) →
        (Thread.main, Event.joinRunthread) ∈ pre
          ∧ frameEvents pre = (main beh settings openReader args).frameThread
          ∧ ∀ x ∈ post, x.1 = Thread.main)
    ∧ (¬ (0 < (setup settings openReader args).1.setting_photometricCalibration
          ∧ (setup settings openReader args).2.getPhotometricGamma = none) →
        (main beh settings openReader args).mainThread.dropWhile
            (fun ev => decide (ev ≠ Event.joinRunthread))
          = Event.joinRunthread
              :: (drainWrappers (registeredWrappers (setup settings openReader args).1)
                ++ [Event.deleteFullSystem
                      (runthread beh (setup settings openReader args).2
                        (setup settings openReader args).1.start
                        (setup settings openReader args).1.end_
                        (firstMachine (setup settings openReader args).1)).machine.engine,
                    Event.deleteReader])) := by
  have hkeep := (frameLoop_keepsSinks beh (setup settings openReader args).2.getPhotometricGamma
    (setup settings openReader args).1.end_
    ((setup settings openReader args).1.end_ - (setup settings openReader args).1.start).toNat
    (setup settings openReader args).1.start (firstMachine (setup settings openReader args).1)).1
  constructor
  · intro pre post t ow hsplit
    by_cases hc : calibrationMissing (setup settings openReader args).1
        (setup settings openReader args).2 = true
    · exfalso
      simp only [main, hc, if_true] at hs
      have hall := Schedule.main_only hs rfl
      cases hs with
      | mainStep _ _ hs1 =>
        cases hs1 with
        | mainStep _ _ hs2 =>
          cases hs2
          rcases hsplit with h | h
          · rcases pre with _ | ⟨p1, _ | ⟨p2, _ | ⟨p3, pre⟩⟩⟩ <;> simp at h
          · rcases pre with _ | ⟨p1, _ | ⟨p2, _ | ⟨p3, pre⟩⟩⟩ <;> simp at h
    · have hrun : (main beh settings openReader args).frameThread
          = (runthread beh (setup settings openReader args).2
              (setup settings openReader args).1.start (setup settings openReader args).1.end_
              (firstMachine (setup settings openReader args).1)).events := by
        simp [main, hc]
      have hmain : ∃ ms1, (main beh settings openReader args).mainThread
          = ms1 ++ Event.joinRunthread
            :: teardown (runthread beh (setup settings openReader args).2
                (setup settings openReader args).1.start (setup settings openReader args).1.end_
                (firstMachine (setup settings openReader args).1)).machine
          ∧ Event.joinRunthread ∉ ms1 ∧ ∀ ev ∈ ms1, ev.isDrain = false := by
        by_cases h1 : (setup settings openReader args).1.disableAllDisplay = true <;>
          by_cases h2 : (setup settings openReader args).1.useSampleOutput = true
        · refine ⟨[Event.newReader, Event.setGlobalCalibration, Event.newFullSystem 0,
            Event.setGammaFunction 0 (setup settings openReader args).2.getPhotometricGamma,
            Event.newWrapper sampleWrapper, Event.pushWrapper 0 sampleWrapper,
            Event.startRunthread], ?_, by simp, by simp [Event.isDrain]⟩
          simp [main, hc, h1, h2, viewerOf]
        · refine ⟨[Event.newReader, Event.setGlobalCalibration, Event.newFullSystem 0,
            Event.setGammaFunction 0 (setup settings openReader args).2.getPhotometricGamma,
            Event.startRunthread], ?_, by simp, by simp [Event.isDrain]⟩
          simp [main, hc, h1, h2, viewerOf]
        · refine ⟨[Event.newReader, Event.setGlobalCalibration, Event.newFullSystem 0,
            Event.setGammaFunction 0 (setup settings openReader args).2.getPhotometricGamma,
            Event.newWrapper viewerWrapper, Event.pushWrapper 0 viewerWrapper,
            Event.newWrapper sampleWrapper, Event.pushWrapper 0 sampleWrapper,
            Event.startRunthread, Event.viewerRun], ?_, by simp, by simp [Event.isDrain]⟩
          simp [main, hc, h1, h2, viewerOf]
        · refine ⟨[Event.newReader, Event.setGlobalCalibration, Event.newFullSystem 0,
            Event.setGammaFunction 0 (setup settings openReader args).2.getPhotometricGamma,
            Event.newWrapper viewerWrapper, Event.pushWrapper 0 viewerWrapper,
            Event.startRunthread, Event.viewerRun], ?_, by simp, by simp [Event.isDrain]⟩
          simp [main, hc, h1, h2, viewerOf]
      obtain ⟨ms1, hm, hj, hd⟩ := hmain
      have hr : ∀ ev ∈ (main beh settings openReader args).frameThread, ev.isDrain = false := by
        rw [hrun]
        exact isDrain_runthread _ _ _ _ _
      rcases hsplit with h | h
      · exact Schedule.drain_after_join hs ms1 _ hm hj hd hr pre post t
          (Event.wrapperJoin ow) rfl h
      · exact Schedule.drain_after_join hs ms1 _ hm hj hd hr pre post t
          (Event.deleteWrapper ow) rfl h
  · intro h
    have hc : calibrationMissing (setup settings openReader args).1
        (setup settings openReader args).2 = false := by
      by_cases h1 : 0 < (setup settings openReader args).1.setting_photometricCalibration
      · have h2 : ¬ (setup settings openReader args).2.getPhotometricGamma = none :=
          fun h2 => h ⟨h1, h2⟩
        cases hg : (setup settings openReader args).2.getPhotometricGamma with
        | none => exact absurd hg h2
        | some t => simp [calibrationMissing, hg]
      · simp [calibrationMissing, h1]
    have hw : (runthread beh (setup settings openReader args).2
        (setup settings openReader args).1.start (setup settings openReader args).1.end_
        (firstMachine (setup settings openReader args).1)).machine.fullSystem.outputWrapper
        = registeredWrappers (setup settings openReader args).1 := hkeep
    by_cases h1 : (setup settings openReader args).1.disableAllDisplay = true <;>
      by_cases h2 : (setup settings openReader args).1.useSampleOutput = true <;>
      simp [main, hc, h1, h2, viewerOf, teardown, hw, List.dropWhile]

/-- Witness of C8: the execution `executionViewerClosedEarly`, in which the viewer
is closed while the frame loop is still at its first frame. -/
theorem join_barrier_is_unconditional_witness :
    (∀ (pre post : List (Thread × Event)) (t : Thread) (ow : Output3DWrapper),
        (executionViewerClosedEarly = pre ++ (t, Event.wrapperJoin ow) :: post
          ∨ executionViewerClosedEarly = pre ++ (t, Event.deleteWrapper ow) :: post) →
        (Thread.main, Event.joinRunthread) ∈ pre
          ∧ frameEvents pre
            = (main behaviourQuiet settingsCalibrated openReaderTwo
                ["sampleoutput=1".toList]).frameThread
          ∧ ∀ x ∈ post, x.1 = Thread.main)
    ∧ (main behaviourQuiet settingsCalibrated openReaderTwo
          ["sampleoutput=1".toList]).mainThread.dropWhile
            (fun ev => decide (ev ≠ Event.joinRunthread))
        = [Event.joinRunthread, Event.wrapperJoin viewerWrapper,
           Event.deleteWrapper viewerWrapper, Event.wrapperJoin sampleWrapper,
           Event.deleteWrapper sampleWrapper, Event.deleteFullSystem 0, Event.deleteReader] :=
  have h := join_barrier_is_unconditional behaviourQuiet settingsCalibrated openReaderTwo
    ["sampleoutput=1".toList] executionViewerClosedEarly
    (by
      show Schedule false
        [Event.newReader, Event.setGlobalCalibration, Event.newFullSystem 0,
         Event.setGammaFunction 0 (some 7), Event.newWrapper viewerWrapper,
         Event.pushWrapper 0 viewerWrapper, Event.newWrapper sampleWrapper,
         Event.pushWrapper 0 sampleWrapper, Event.startRunthread, Event.viewerRun,
         Event.joinRunthread, Event.wrapperJoin viewerWrapper, Event.deleteWrapper viewerWrapper,
         Event.wrapperJoin sampleWrapper, Event.deleteWrapper sampleWrapper,
         Event.deleteFullSystem 0, Event.deleteReader]
        [Event.restartClock, Event.getImage 0, Event.addActiveFrame 0 0, Event.deleteImage 0,
         Event.getImage 1, Event.addActiveFrame 0 1, Event.deleteImage 1,
         Event.printResult 0 "result.txt"]
        executionViewerClosedEarly
      unfold executionViewerClosedEarly
      repeat
        first
          | exact Schedule.done _
          | apply Schedule.start
          | apply Schedule.join
          | apply Schedule.frameStep
          | apply Schedule.mainStep (by decide) (by decide))
  ⟨h.1, h.2 (by decide)⟩

end DSO
